import Mathlib

/-!
# Verification of the SqlaQueryBuilder core

Shallow embedding of `src/aiida/orm/implementation/sqlalchemy/querybuilder/main.py`
(`SqlaQueryBuilder`). Pure translation functions (`cast_according_to_type`,
`get_filter_expr*`, `build_filters`, the projection builders, `_build`,
`update_query`, `count`/`first`/`iterall`/`iterdict`) are embedded as Lean
functions over an explicit builder state. External collaborators that the
specification scopes out (the storage engine evaluating compiled predicates,
the schema tables supplying column names, the join dispatch of `SqlaJoiner`,
and the content hash `make_hash`) are either modelled from the spec or taken
as parameters, as documented on each definition.
-/

/-- A JSON-compatible dynamically-typed Python value, as used for filter and
comparison values (spec §9: one of null, boolean, integer, float, text,
ordered sequence, mapping). Float payloads are modelled by integers: no claim
depends on float arithmetic, only on the runtime type tag of the value. -/
inductive PyValue where
  | none
  | bool (b : Bool)
  | int (n : Int)
  | float (q : Int)
  | str (s : String)
  | list (xs : List PyValue)
  | dict (kvs : List (String × PyValue))
  deriving BEq, Repr

/-- `isinstance(v, bool)` in Python. -/
def PyValue.isBool : PyValue → Bool
  | .bool _ => true
  | _ => false

/-- `isinstance(v, (int, float))` in Python (a `bool` is also an `int` there,
but every call site checks `bool` first, mirrored by the embedded if-chains). -/
def PyValue.isIntOrFloat : PyValue → Bool
  | .int _ => true
  | .float _ => true
  | .bool _ => true
  | _ => false

/-- `isinstance(v, int)` in Python; note that `bool` is a subclass of `int`. -/
def PyValue.isInstInt : PyValue → Bool
  | .int _ => true
  | .bool _ => true
  | _ => false

/-- `isinstance(v, dict)` in Python. -/
def PyValue.isDict : PyValue → Bool
  | .dict _ => true
  | _ => false

/-- `isinstance(v, str)` in Python. -/
def PyValue.isStr : PyValue → Bool
  | .str _ => true
  | _ => false

/-- `v is None` in Python. -/
def PyValue.isNone : PyValue → Bool
  | .none => true
  | _ => false

/-- `type(v).__name__`, used by the `in`-operator homogeneity check. -/
def PyValue.typeName : PyValue → String
  | .none => "NoneType"
  | .bool _ => "bool"
  | .int _ => "int"
  | .float _ => "float"
  | .str _ => "str"
  | .list _ => "list"
  | .dict _ => "dict"

/-- Python iteration, `for i in v`: lists yield their elements, strings their
characters, mappings their keys; other values raise `TypeError`. -/
def PyValue.pyIter : PyValue → Except String (List PyValue)
  | .list xs => .ok xs
  | .str s => .ok (s.toList.map fun c => PyValue.str (String.mk [c]))
  | .dict kvs => .ok (kvs.map fun kv => PyValue.str kv.1)
  | _ => .error ("TypeError: value is not iterable")

/-- Python `v[0]`: first element of a list or string; anything else raises. -/
def PyValue.pyIndexZero : PyValue → Except String PyValue
  | .list (x :: _) => .ok x
  | .list [] => .error ("IndexError: list index out of range")
  | .str s =>
    match s.toList with
    | c :: _ => .ok (PyValue.str (String.mk [c]))
    | [] => .error ("IndexError: string index out of range")
  | _ => .error ("TypeError: value is not subscriptable")

/-- Modelled from the spec: the storage engine's runtime type tag of a stored
semi-structured value (§4.2: `object`, `array`, `string`, `number`,
`boolean`, `null`), i.e. PostgreSQL `jsonb_typeof`. -/
def jsonbTypeof : PyValue → String
  | .none => "null"
  | .bool _ => "boolean"
  | .int _ => "number"
  | .float _ => "number"
  | .str _ => "string"
  | .list _ => "array"
  | .dict _ => "object"

/-- An opaque per-build entity handle (`aliased(cls)`): a fresh id, the entity
kind it instantiates, and whether it carries a class manager (plain table
aliases produced for some join edges do not, cf. `modify_expansions`). -/
structure Alias where
  id : Nat
  cls : String
  hasManager : Bool
  deriving BEq, Repr, DecidableEq

/-- A resolved plain column of a bound alias. -/
structure Column where
  aliasId : Nat
  name : String
  deriving BEq, Repr, DecidableEq

/-- `column[tuple(attr_key)]`: a semi-structured value addressed inside a
JSONB column by a path of sub-keys. -/
structure JsonbEntity where
  col : Column
  path : List String
  deriving BEq, Repr, DecidableEq

/-- The cast applied to the addressed JSONB value by
`cast_according_to_type` (`.astext.cast(...)` chains). -/
inductive CastKind where
  | castBoolean
  | castFloat
  | castJsonb
  | astext
  deriving BEq, Repr, DecidableEq

/-- Comparison operators appearing in compiled expressions. -/
inductive CmpOp where
  | eq
  | gt
  | lt
  | ge
  | le
  deriving BEq, Repr, DecidableEq

/-- Array-length comparison operators (`of_length`, `longer`, `shorter`). -/
inductive LenCmp where
  | lenEq
  | lenGt
  | lenLt
  deriving BEq, Repr, DecidableEq

/-- The compiled predicate expression tree produced by the filter compiler.
Constructors mirror the SQLAlchemy expressions constructed in
`get_filter_expr_from_jsonb`, `get_filter_expr_from_column` and
`build_filters`; `caseElseFalse c t` is `case([(c, t)], else_=False)`. -/
inductive SqlExpr where
  | caseElseFalse (cond : SqlExpr) (thn : SqlExpr)
  | typeofIs (ent : JsonbEntity) (tag : String)
  | jsonbCmp (op : CmpOp) (ent : JsonbEntity) (ck : CastKind) (rhs : PyValue)
  | jsonbLike (ilike : Bool) (ent : JsonbEntity) (ck : CastKind) (pat : PyValue)
  | jsonbIn (ent : JsonbEntity) (ck : CastKind) (vals : PyValue)
  | jsonbContains (ent : JsonbEntity) (v : PyValue)
  | jsonbHasKey (ent : JsonbEntity) (v : PyValue)
  | jsonbArrayLen (op : LenCmp) (ent : JsonbEntity) (n : PyValue)
  | colCmp (op : String) (col : Column) (v : PyValue)
  | notE (e : SqlExpr)
  | andE (es : List SqlExpr)
  | orE (es : List SqlExpr)
  deriving BEq, Repr

/-- `cast_according_to_type` (main.py lines 878-900): infer the runtime type
tag to guard on and the cast of the stored entity from the Python type of the
filter value. The branch order, including the two unreachable branches for
`array` and `null`, mirrors the source if-chain exactly. -/
def cast_according_to_type (path_in_json : JsonbEntity) (value : PyValue) :
    Except String (SqlExpr × CastKind) :=
  if value.isBool then
    .ok (.typeofIs path_in_json "boolean", .castBoolean)
  else if value.isIntOrFloat then
    .ok (.typeofIs path_in_json "number", .castFloat)
  else if value.isDict || value.isNone then
    .ok (.typeofIs path_in_json "object", .castJsonb)
  else if value.isDict then
    .ok (.typeofIs path_in_json "array", .castJsonb)
  else if value.isStr then
    .ok (.typeofIs path_in_json "string", .astext)
  else if value.isNone then
    .ok (.typeofIs path_in_json "null", .castJsonb)
  else
    .error ("TypeError: Unknown type " ++ value.typeName)

/-- Modelled from the spec: text rendering of a stored value (`->>` /
`.astext`). Only scalar renderings matter to any claim; composite values get
a rough placeholder rendering. -/
def pyText : PyValue → String
  | .str s => s
  | .int n => toString n
  | .float q => toString q
  | .bool b => if b then "true" else "false"
  | .none => "null"
  | .list _ => "[array]"
  | .dict _ => "[object]"

/-- Numeric payload of a stored value, when it is a JSON number. -/
def numVal : PyValue → Option Int
  | .int n => some n
  | .float q => some q
  | _ => Option.none

/-- Equality of stored values, identifying integer and float payloads with
the same numeric value (SQL numeric comparison). -/
def pyEqB (a b : PyValue) : Bool :=
  match numVal a, numVal b with
  | some x, some y => x == y
  | _, _ => a == b

/-- Integer comparison under a comparison operator. -/
def intCmp (op : CmpOp) (x y : Int) : Bool :=
  match op with
  | .eq => x == y
  | .gt => decide (x > y)
  | .lt => decide (x < y)
  | .ge => decide (x ≥ y)
  | .le => decide (x ≤ y)

/-- Lexicographic string comparison under a comparison operator. -/
def strCmp (op : CmpOp) (x y : String) : Bool :=
  match op with
  | .eq => x == y
  | .gt => decide (y < x)
  | .lt => decide (x < y)
  | .ge => x == y || decide (y < x)
  | .le => x == y || decide (x < y)

/-- Modelled from the spec: evaluation-time comparison of a (casted) stored
value with the filter value. Comparable types compare; an ordering
comparison between incomparable types is an evaluation error. -/
def pyCmpB (op : CmpOp) (a b : PyValue) : Except String Bool :=
  match numVal a, numVal b with
  | some x, some y => .ok (intCmp op x y)
  | _, _ =>
    match a, b with
    | .str s, .str t => .ok (strCmp op s t)
    | _, _ =>
      match op with
      | .eq => .ok (pyEqB a b)
      | _ => .error ("evaluation error: unsupported ordering comparison")

/-- SQL `LIKE` pattern matching over character lists: `%` matches any
sequence, `_` any single character. -/
def likeMatchAux : List Char → List Char → Bool
  | [], [] => true
  | [], _ :: _ => false
  | p :: ps, [] => p == '%' && likeMatchAux ps []
  | p :: ps, c :: cs =>
    if p == '%' then likeMatchAux ps (c :: cs) || likeMatchAux ('%' :: ps) cs
    else if p == '_' then likeMatchAux ps cs
    else p == c && likeMatchAux ps cs
  termination_by p s => (s.length, p.length)

/-- SQL `LIKE` / `ILIKE` (case-insensitive when `ilike` is set). -/
def likeMatch (ilike : Bool) (pat s : String) : Bool :=
  if ilike then likeMatchAux pat.toLower.toList s.toLower.toList
  else likeMatchAux pat.toList s.toList

/-- Modelled from the spec: jsonb containment (`contains`), rough shallow
model; no claim depends on its exact semantics. -/
def jsonbContainsB (stored v : PyValue) : Bool :=
  match stored, v with
  | .list xs, .list vs => vs.all fun e => xs.any fun x => pyEqB x e
  | .dict kvs, .dict vks =>
    vks.all fun kv => kvs.any fun kv2 => kv2.1 == kv.1 && pyEqB kv2.2 kv.2
  | _, _ => pyEqB stored v

/-- Modelled from the spec: jsonb `has_key` (member of an object's keys or an
array's string elements). -/
def jsonbHasKeyB (stored v : PyValue) : Bool :=
  match stored, v with
  | .dict kvs, .str k => kvs.any fun kv => kv.1 == k
  | .list xs, .str k => xs.any fun x => x == PyValue.str k
  | _, _ => false

/-- Array-length comparison. -/
def lenCmpB (op : LenCmp) (len : Nat) (k : Int) : Bool :=
  match op with
  | .lenEq => (len : Int) == k
  | .lenGt => decide ((len : Int) > k)
  | .lenLt => decide ((len : Int) < k)

/-- Modelled from the spec: evaluation of a cast applied to the stored value.
The model is conservative: a cast applied to a stored value of a different
runtime type is an evaluation error, which is exactly what the compiled type
guards must prevent (§4.2). -/
def evalCasted (ck : CastKind) (stored : PyValue) : Except String PyValue :=
  match ck with
  | .castBoolean =>
    match stored with
    | .bool b => .ok (.bool b)
    | _ => .error ("evaluation error: cannot cast to boolean")
  | .castFloat =>
    match numVal stored with
    | some _ => .ok stored
    | Option.none => .error ("evaluation error: cannot cast to float")
  | .castJsonb => .ok stored
  | .astext => .ok (.str (pyText stored))

mutual

/-- Modelled from the spec: the storage engine's evaluation of a compiled
predicate against the stored value addressed by the predicate's jsonb
entity (§4.2, §8). `case([(c, t)], else_=False)` evaluates its guard first
and yields `false` when the guard fails; an evaluation error is a raised
error at evaluation time. -/
def evalExpr (stored : PyValue) : SqlExpr → Except String Bool
  | .caseElseFalse c t => do
    let cv ← evalExpr stored c
    if cv then evalExpr stored t else pure false
  | .typeofIs _ tag => pure (jsonbTypeof stored == tag)
  | .jsonbCmp op _ ck rhs => do
    let cv ← evalCasted ck stored
    pyCmpB op cv rhs
  | .jsonbLike il _ ck pat => do
    let cv ← evalCasted ck stored
    match cv, pat with
    | .str s, .str p => pure (likeMatch il p s)
    | _, _ => .error ("evaluation error: like requires text operands")
  | .jsonbIn _ ck vals => do
    let cv ← evalCasted ck stored
    match vals with
    | .list xs => pure (xs.any fun x => pyEqB cv x)
    | _ => .error ("evaluation error: in requires a sequence")
  | .jsonbContains _ v => pure (jsonbContainsB stored v)
  | .jsonbHasKey _ v => pure (jsonbHasKeyB stored v)
  | .jsonbArrayLen op _ n =>
    match stored, n with
    | .list xs, .int k => pure (lenCmpB op xs.length k)
    | .list _, _ => .error ("evaluation error: length compared to a non-integer")
    | _, _ => .error ("evaluation error: jsonb_array_length of a non-array")
  | .colCmp _ _ _ => .error ("evaluation error: scalar column predicates are evaluated against rows, not a stored jsonb value")
  | .notE e => do pure (!(← evalExpr stored e))
  | .andE es => evalAll stored es
  | .orE es => evalAny stored es
  termination_by structural e => e

/-- Conjunction of a list of compiled predicates (`and_`). -/
def evalAll (stored : PyValue) : List SqlExpr → Except String Bool
  | [] => pure true
  | e :: rest => do
    let b ← evalExpr stored e
    let r ← evalAll stored rest
    pure (b && r)
  termination_by structural l => l

/-- Disjunction of a list of compiled predicates (`or_`). -/
def evalAny (stored : PyValue) : List SqlExpr → Except String Bool
  | [] => pure false
  | e :: rest => do
    let b ← evalExpr stored e
    let r ← evalAny stored rest
    pure (b || r)
  termination_by structural l => l

end

/-- Modelled from the spec: the entity/schema collaborator (§6) supplying,
per entity kind, the set of valid column names (the sqlalchemy model classes
`DbNode`, `DbComputer`, ... live outside this core). -/
def columnsOf : String → List String
  | "node" => ["id", "uuid", "node_type", "process_type", "label", "description",
               "ctime", "mtime", "user_id", "dbcomputer_id", "attributes", "extras"]
  | "computer" => ["id", "uuid", "label", "hostname", "description",
                   "scheduler_type", "transport_type", "_metadata"]
  | "user" => ["id", "email", "first_name", "last_name", "institution"]
  | "group" => ["id", "uuid", "label", "type_string", "time", "description",
                "extras", "user_id"]
  | "comment" => ["id", "uuid", "ctime", "mtime", "user_id", "dbnode_id", "content"]
  | "log" => ["id", "uuid", "time", "loggername", "levelname", "dbnode_id",
              "message", "_metadata"]
  | "authinfo" => ["id", "aiidauser_id", "dbcomputer_id", "_metadata",
                   "auth_params", "enabled"]
  | "link" => ["id", "input_id", "output_id", "label", "type"]
  | _ => []

/-- Modelled from the spec: `alias.__tablename__` of each entity kind's model
class (schema collaborator, §6). -/
def tableName : String → String
  | "node" => "db_dbnode"
  | "computer" => "db_dbcomputer"
  | "user" => "db_dbuser"
  | "group" => "db_dbgroup"
  | "comment" => "db_dbcomment"
  | "log" => "db_dblog"
  | "authinfo" => "db_dbauthinfo"
  | "link" => "db_dblink"
  | c => c

/-- `get_column` (main.py lines 608-620): `getattr(alias, colname)`, raising a
`ValueError` that enumerates the valid column names when the column does not
exist on the alias's entity kind. -/
def get_column (colname : String) (al : Alias) : Except String Column :=
  if (columnsOf al.cls).contains colname then
    .ok { aliasId := al.id, name := colname }
  else
    .error ("ValueError: " ++ colname ++ " is not a column of " ++ al.cls ++
      "; valid columns are: " ++ String.intercalate (" ") (columnsOf al.cls))

/-- `get_filter_expr_from_column` (main.py lines 961-995): scalar leaf
predicate on a plain column. The `isinstance` guard on the column object is
always satisfied in this typed embedding, where every `Column` is produced by
`get_column`. `like` casts the column to its string rendering first. -/
def get_filter_expr_from_column (operator : String) (value : PyValue) (column : Column) :
    Except String SqlExpr :=
  if operator == "==" then .ok (.colCmp ("==") column value)
  else if operator == ">" then .ok (.colCmp (">") column value)
  else if operator == "<" then .ok (.colCmp ("<") column value)
  else if operator == ">=" then .ok (.colCmp (">=") column value)
  else if operator == "<=" then .ok (.colCmp ("<=") column value)
  else if operator == "like" then .ok (.colCmp ("like") column value)
  else if operator == "ilike" then .ok (.colCmp ("ilike") column value)
  else if operator == "in" then .ok (.colCmp ("in") column value)
  else .error ("ValueError: Unknown operator " ++ operator ++ " for filters on columns")

/-- The six valid runtime type tags accepted by `of_type`. -/
def validJsonTypes : List String :=
  ["object", "array", "string", "number", "boolean", "null"]

/-- `get_filter_expr_from_jsonb` (main.py lines 871-959): semi-structured
leaf predicate. Every comparison operator wraps its comparison in
`case([(type_guard, comparison)], else_=False)`; the array-length operators
guard on the `array` type tag; `of_type`, `contains` and `has_key` are
unguarded. -/
def get_filter_expr_from_jsonb (operator : String) (value : PyValue)
    (attr_key : List String) (column : Option Column)
    (column_name : Option String) (al : Option Alias) : Except String SqlExpr := do
  let col ← match column with
    | some c => pure c
    | Option.none =>
      match column_name, al with
      | some cn, some a => get_column cn a
      | _, _ => .error ("TypeError: get_column needs a column name and an alias")
  let database_entity : JsonbEntity := { col := col, path := attr_key }
  if operator == "==" then do
    let (type_filter, casted) ← cast_according_to_type database_entity value
    pure (.caseElseFalse type_filter (.jsonbCmp .eq database_entity casted value))
  else if operator == ">" then do
    let (type_filter, casted) ← cast_according_to_type database_entity value
    pure (.caseElseFalse type_filter (.jsonbCmp .gt database_entity casted value))
  else if operator == "<" then do
    let (type_filter, casted) ← cast_according_to_type database_entity value
    pure (.caseElseFalse type_filter (.jsonbCmp .lt database_entity casted value))
  else if operator == ">=" || operator == "=>" then do
    let (type_filter, casted) ← cast_according_to_type database_entity value
    pure (.caseElseFalse type_filter (.jsonbCmp .ge database_entity casted value))
  else if operator == "<=" || operator == "=<" then do
    let (type_filter, casted) ← cast_according_to_type database_entity value
    pure (.caseElseFalse type_filter (.jsonbCmp .le database_entity casted value))
  else if operator == "of_type" then
    match value with
    | .str s =>
      if validJsonTypes.contains s then pure (.typeofIs database_entity s)
      else .error ("ValueError: value for of_type is not among valid types")
    | _ => .error ("ValueError: value for of_type is not among valid types")
  else if operator == "like" then do
    let (type_filter, casted) ← cast_according_to_type database_entity value
    pure (.caseElseFalse type_filter (.jsonbLike false database_entity casted value))
  else if operator == "ilike" then do
    let (type_filter, casted) ← cast_according_to_type database_entity value
    pure (.caseElseFalse type_filter (.jsonbLike true database_entity casted value))
  else if operator == "in" then do
    let v0 ← value.pyIndexZero
    let (type_filter, casted) ← cast_according_to_type database_entity v0
    pure (.caseElseFalse type_filter (.jsonbIn database_entity casted value))
  else if operator == "contains" then
    pure (.jsonbContains database_entity value)
  else if operator == "has_key" then
    pure (.jsonbHasKey database_entity value)
  else if operator == "of_length" then
    pure (.caseElseFalse (.typeofIs database_entity "array")
      (.jsonbArrayLen .lenEq database_entity value))
  else if operator == "longer" then
    pure (.caseElseFalse (.typeofIs database_entity "array")
      (.jsonbArrayLen .lenGt database_entity value))
  else if operator == "shorter" then
    pure (.caseElseFalse (.typeofIs database_entity "array")
      (.jsonbArrayLen .lenLt database_entity value))
  else
    .error ("ValueError: Unknown operator " ++ operator ++ " for filters in JSON field")

/-- Insert a type name unless already present (`set(...)` of type names;
only emptiness and cardinality of the set are ever consumed). -/
def insertUniq (x : String) (l : List String) : List String :=
  if l.contains x then l else l ++ [x]

/-- `set(type(i) for i in value)`: the distinct Python type names of the
elements. -/
def typeSet (elems : List PyValue) : List String :=
  elems.foldl (fun acc e => insertUniq e.typeName acc) []

/-- First-character test (`operator.startswith('~')`), written over the
character list so that concrete inputs reduce definitionally. -/
def startsWithChar (s : String) (c : Char) : Bool :=
  match s.toList with
  | [] => false
  | c2 :: _ => c2 == c

/-- Python `s.split('.')` over the character list. -/
def splitDotAux : List Char → List Char → List String
  | [], acc => [String.mk acc.reverse]
  | c :: rest, acc =>
    if c == '.' then String.mk acc.reverse :: splitDotAux rest []
    else splitDotAux rest (c :: acc)

/-- Python `field_key.split('.')`: the column name is the first segment, the
attribute path the remaining segments. -/
def pySplitDot (s : String) : List String :=
  splitDotAux s.toList []

/-- The `~`/`!` negation stripping of `get_filter_expr` (main.py lines
810-818): `lstrip` removes every leading occurrence of the character. -/
def stripNegation (operator : String) : String × Bool :=
  if startsWithChar operator '~' then
    (String.mk (operator.toList.dropWhile (fun c => c == '~')), true)
  else if startsWithChar operator '!' then
    (String.mk (operator.toList.dropWhile (fun c => c == '!')), true)
  else (operator, false)

/-- The value validation of the array-length operators (main.py lines
819-821): the value must be a Python `int` (a `bool` qualifies). -/
def lengthOperatorCheck (value : PyValue) : Except String Unit :=
  if !value.isInstInt then
    .error ("TypeError: You have to give an integer when comparing to a length")
  else .ok ()

/-- The value validation of `like`/`ilike` (main.py lines 822-824). -/
def likeOperatorCheck (op : String) (value : PyValue) : Except String Unit :=
  if !value.isStr then
    .error ("TypeError: Value for operator " ++ op ++ " has to be a string")
  else .ok ()

/-- The value validation of `in` (main.py lines 826-834): the value must be
iterable, and its set of element types non-empty and of size one. -/
def inOperatorCheck (value : PyValue) : Except String Unit :=
  match value.pyIter with
  | .ok elems =>
    if (typeSet elems).isEmpty then
      .error ("ValueError: Value for operator in is an empty list")
    else if (typeSet elems).length > 1 then
      .error ("ValueError: Value for operator in contains more than one type")
    else .ok ()
  | .error _ => .error ("TypeError: Value for operator in could not be iterated")

/-- The final dispatch of `get_filter_expr` (main.py lines 855-865): the
semi-structured compiler for a JSONB path, otherwise the plain-column
compiler on the given or freshly looked-up column. -/
def gfeDispatch (op : String) (value : PyValue) (attr_key : List String)
    (is_jsonb : Bool) (al : Option Alias) (column : Option Column)
    (column_name : Option String) : Except String SqlExpr :=
  if is_jsonb then
    get_filter_expr_from_jsonb op value attr_key column column_name al
  else
    match column with
    | some c => get_filter_expr_from_column op value c
    | Option.none =>
      match al, column_name with
      | Option.none, Option.none =>
        Except.error ("RuntimeError: I need to get the column but do not know the alias and the column name")
      | someAl, someCn =>
        match someCn, someAl with
        | some cn, some a => do
          let c ← get_column cn a
          get_filter_expr_from_column op value c
        | _, _ => Except.error ("TypeError: get_column needs a column name and an alias")

/-- The value checks of the non-combinator leaf operators (main.py lines
819-834), yielding no expression of their own. -/
def gfeLeafChecks (op : String) (value : PyValue) : Except String (Option SqlExpr) :=
  if op == "longer" || op == "shorter" || op == "of_length" then
    (lengthOperatorCheck value).bind fun _ => pure Option.none
  else if op == "like" || op == "ilike" then
    (likeOperatorCheck op value).bind fun _ => pure Option.none
  else if op == "in" then
    (inOperatorCheck value).bind fun _ => pure Option.none
  else
    pure Option.none

/-- `and_`/`or_` combination of the leaf `and`/`or` sub-expressions (main.py
lines 850-853). -/
def combineAndOr (op : String) (es : List SqlExpr) : SqlExpr :=
  if op == "and" then SqlExpr.andE es else SqlExpr.orE es

/-- The shapes of a leaf `and`/`or` value other than a list: iterating a
non-empty mapping or string reaches `.items()` on a non-mapping and raises;
empty iterables yield no sub-expressions; anything else is not iterable.
The list shape is handled at the call site (it feeds the recursion). -/
def gfeCombineFallback : PyValue → Except String (List SqlExpr)
  | .dict [] => pure []
  | .dict (_ :: _) => .error ("AttributeError: str item has no items")
  | .str s =>
    if s.isEmpty then pure []
    else .error ("AttributeError: str item has no items")
  | _ => .error ("TypeError: value of a leaf combinator is not iterable")

/-- The tail of `get_filter_expr` (main.py lines 855-869): dispatch when no
combinator expression was produced, then apply the negation. -/
def gfeFinish (negation : Bool) (op : String) (value : PyValue) (attr_key : List String)
    (is_jsonb : Bool) (al : Option Alias) (column : Option Column)
    (column_name : Option String) (exprOpt : Option SqlExpr) : Except String SqlExpr := do
  let expr ← match exprOpt with
    | some e => pure e
    | Option.none => gfeDispatch op value attr_key is_jsonb al column column_name
  if negation then pure (SqlExpr.notE expr) else pure expr

mutual

/-- `get_filter_expr` (main.py lines 726-869): single leaf predicate, with
`~`/`!` negation stripping, the length/like/in value validations, the
narrower `and`/`or` leaf recursion over (operator, value) sub-specifications,
and the dispatch to the semi-structured or the plain-column compiler. -/
def get_filter_expr (operator : String) (value : PyValue) (attr_key : List String)
    (is_jsonb : Bool) (al : Option Alias) (column : Option Column)
    (column_name : Option String) : Except String SqlExpr := do
  let op := (stripNegation operator).1
  let exprOpt : Option SqlExpr ←
    if op == "and" || op == "or" then do
      let es ← match value with
        | .list subs => gfeSubs subs attr_key is_jsonb al column column_name
        | v => gfeCombineFallback v
      pure (some (combineAndOr op es))
    else gfeLeafChecks op value
  gfeFinish (stripNegation operator).2 op value attr_key is_jsonb al column column_name exprOpt
  termination_by structural value

/-- The element loop of the `and`/`or` leaf recursion: each element must be a
mapping of operator to value. -/
def gfeSubs (subs : List PyValue) (attr_key : List String) (is_jsonb : Bool)
    (al : Option Alias) (column : Option Column) (column_name : Option String) :
    Except String (List SqlExpr) :=
  match subs with
  | [] => pure []
  | PyValue.dict kvs :: rest => do
    let es ← gfeKvs kvs attr_key is_jsonb al column column_name
    let tail ← gfeSubs rest attr_key is_jsonb al column column_name
    pure (es ++ tail)
  | _ :: _ => .error ("AttributeError: sub-specification has no items")
  termination_by structural subs

/-- The (operator, value) loop of the `and`/`or` leaf recursion. -/
def gfeKvs (kvs : List (String × PyValue)) (attr_key : List String) (is_jsonb : Bool)
    (al : Option Alias) (column : Option Column) (column_name : Option String) :
    Except String (List SqlExpr) :=
  match kvs with
  | [] => pure []
  | (newoperator, newvalue) :: rest => do
    let e ← get_filter_expr newoperator newvalue attr_key is_jsonb al column column_name
    let es ← gfeKvs rest attr_key is_jsonb al column column_name
    pure (e :: es)
  termination_by structural kvs

end

/-- The (operator, value) loop of a leaf field-path key in `build_filters`
(lines 658-669): one leaf predicate per operator, ANDed by the caller. -/
def bfOps (al : Alias) (fod : List (String × PyValue)) (attr_key : List String)
    (is_jsonb : Bool) (column : Option Column) (column_name : String) :
    Except String (List SqlExpr) :=
  match fod with
  | [] => pure []
  | (operator, value) :: rest => do
    let e ← get_filter_expr operator value attr_key is_jsonb (some al) column (some column_name)
    let es ← bfOps al rest attr_key is_jsonb column column_name
    pure (e :: es)

mutual

/-- The key loop of `build_filters` (main.py lines 630-670): spec-level
combinator keys recurse into sub-specifications; any other key is a field
path whose value is an operator mapping or a literal (implicit `==`). The
resulting expressions are ANDed by `build_filters`. -/
def buildFilterExprs (al : Alias) (filter_spec : List (String × PyValue)) :
    Except String (List SqlExpr) :=
  match filter_spec with
  | [] => pure []
  | (path_spec, filter_operation_dict) :: rest => do
    let es ←
      if path_spec == "and" || path_spec == "or" || path_spec == "~or" ||
          path_spec == "~and" || path_spec == "!and" || path_spec == "!or" then do
        let subexpressions ←
          match filter_operation_dict with
          | .list subs => bfSubs al subs
          | .dict [] => pure []
          | .str s =>
            if s.isEmpty then pure []
            else Except.error ("AttributeError: str item has no items")
          | .dict (_ :: _) => Except.error ("AttributeError: str item has no items")
          | _ => Except.error ("TypeError: combinator value is not iterable")
        if path_spec == "and" then pure [SqlExpr.andE subexpressions]
        else if path_spec == "or" then pure [SqlExpr.orE subexpressions]
        else if path_spec == "~and" || path_spec == "!and" then
          pure [SqlExpr.notE (SqlExpr.andE subexpressions)]
        else pure [SqlExpr.notE (SqlExpr.orE subexpressions)]
      else do
        let column_name := (pySplitDot path_spec).headD path_spec
        let attr_key := (pySplitDot path_spec).tail
        let is_jsonb := !attr_key.isEmpty || column_name == "attributes" ||
          column_name == "extras"
        let column : Option Column ←
          match get_column column_name al with
          | .ok c => pure (some c)
          | .error e => if is_jsonb then pure Option.none else Except.error e
        let fod : List (String × PyValue) :=
          match filter_operation_dict with
          | .dict kvs => kvs
          | v => [("==", v)]
        bfOps al fod attr_key is_jsonb column column_name
    let tail ← buildFilterExprs al rest
    pure (es ++ tail)
  termination_by structural filter_spec

/-- The sub-specification loop of a spec-level combinator: each element is a
nested filter specification, compiled by a recursive `build_filters` call
(whose result is the AND of its expressions). -/
def bfSubs (al : Alias) (subs : List PyValue) : Except String (List SqlExpr) :=
  match subs with
  | [] => pure []
  | sub :: rest => do
    let e ← buildFiltersVal al sub
    let tail ← bfSubs al rest
    pure (e :: tail)
  termination_by structural subs

/-- A recursive `build_filters` call on one sub-specification element, which
must be a mapping (iterating `.items()` of anything else raises). -/
def buildFiltersVal (al : Alias) (sub : PyValue) : Except String SqlExpr :=
  match sub with
  | .dict kvs => do
    let es ← buildFilterExprs al kvs
    pure (SqlExpr.andE es)
  | _ => .error ("AttributeError: sub-specification has no items")
  termination_by structural sub

end

/-- `build_filters` (main.py lines 622-670): compile a filter specification
to a predicate, ANDing the expressions of all top-level keys. -/
def build_filters (al : Alias) (filter_spec : List (String × PyValue)) :
    Except String SqlExpr := do
  pure (SqlExpr.andE (← buildFilterExprs al filter_spec))

/-- Ordered-mapping lookup-or-replace, mirroring Python dict assignment
(insertion order preserved, assignment replaces in place). -/
def assocUpsert {κ α : Type} [BEq κ] (k : κ) (v : α) : List (κ × α) → List (κ × α)
  | [] => [(k, v)]
  | (k2, v2) :: rest => if k2 == k then (k, v) :: rest else (k2, v2) :: assocUpsert k v rest

/-- `set_field_mappings` (main.py lines 112-118): outer to inner field names. -/
def outer_to_inner_schema : List (String × List (String × String)) :=
  [("db_dbcomputer", [("metadata", "_metadata")]),
   ("db_dblog", [("metadata", "_metadata")])]

/-- `set_field_mappings` (main.py lines 112-118): inner to outer field names. -/
def inner_to_outer_schema : List (String × List (String × String)) :=
  [("db_dbcomputer", [("_metadata", "metadata")]),
   ("db_dblog", [("_metadata", "metadata")])]

/-- `get_corresponding_property` (main.py lines 705-724): remap one property
name through the per-table mapper, returning it unchanged when the table or
the property has no entry. -/
def get_corresponding_property (entity_table : String) (given_property : String)
    (mapper : List (String × List (String × String))) : String :=
  match mapper.lookup entity_table with
  | Option.none => given_property
  | some property_mapping =>
    match property_mapping.lookup given_property with
    | some p => p
    | Option.none => given_property

/-- `get_corresponding_properties` (main.py lines 689-703). -/
def get_corresponding_properties (entity_table : String) (given_properties : List String)
    (mapper : List (String × List (String × String))) : List String :=
  match mapper.lookup entity_table with
  | some _ => given_properties.map fun p => get_corresponding_property entity_table p mapper
  | Option.none => given_properties

/-- `get_column_names` (main.py lines 1002-1007): the database column names of
the aliased table (inner names). -/
def get_column_names (al : Alias) : List String :=
  columnsOf al.cls

/-- `modify_expansions` (main.py lines 672-687): remap projection names via
the outer-to-inner schema; asking for the reserved inner name `_metadata` on
a managed alias raises `NotExistent`; unmanaged (plain-table) aliases pass
through unchanged. -/
def modify_expansions (al : Alias) (expansions : List String) : Except String (List String) :=
  if al.hasManager then
    if expansions.contains ("_metadata") then
      .error ("NotExistent: _metadata does not exist for the alias, please try metadata")
    else
      .ok (get_corresponding_properties (tableName al.cls) expansions outer_to_inner_schema)
  else
    .ok expansions

/-- The typed casts of `get_projectable_attribute` (`f`, `i`, `b`, `t`, `j`,
`d`). -/
inductive JCast where
  | f
  | i
  | b
  | t
  | j
  | d
  deriving BEq, Repr, DecidableEq

/-- A resolved projectable entity: a plain column, a raw addressed JSONB
value, or an addressed JSONB value with a typed cast applied. -/
inductive ProjEntity where
  | plainCol (c : Column)
  | jsonbRaw (ent : JsonbEntity)
  | jsonbCast (ent : JsonbEntity) (cast : JCast)
  deriving BEq, Repr

/-- `get_projectable_attribute` (main.py lines 580-606): address `attrpath`
inside the JSONB column, then apply the optional cast; `cast=None` leaves the
raw addressed value (no error), an unknown cast key raises. -/
def get_projectable_attribute (al : Alias) (column_name : String)
    (attrpath : List String) (cast : Option String) : Except String ProjEntity := do
  let c ← get_column column_name al
  let entity : JsonbEntity := { col := c, path := attrpath }
  match cast with
  | Option.none => pure (ProjEntity.jsonbRaw entity)
  | some cs =>
    if cs == "f" then pure (.jsonbCast entity .f)
    else if cs == "i" then pure (.jsonbCast entity .i)
    else if cs == "b" then pure (.jsonbCast entity .b)
    else if cs == "t" then pure (.jsonbCast entity .t)
    else if cs == "j" then pure (.jsonbCast entity .j)
    else if cs == "d" then pure (.jsonbCast entity .d)
    else .error ("ValueError: Unknown casting key " ++ cs)

/-- `_get_projectable_entity` (main.py lines 566-578): a non-empty attribute
path or a known semi-structured column goes through the JSONB resolution,
anything else is a plain column (the cast is ignored). -/
def _get_projectable_entity (al : Alias) (column_name : String)
    (attrpath : List String) (cast : Option String) : Except String ProjEntity :=
  if !attrpath.isEmpty || column_name == "attributes" || column_name == "extras" then
    get_projectable_attribute al column_name attrpath cast
  else
    ProjEntity.plainCol <$> get_column column_name al

/-- Aggregate functions; `minA` exists as a distinct operation so that the
embedding can express which aggregate the source actually applies. -/
inductive AggFunc where
  | maxA
  | minA
  | countA
  deriving BEq, Repr, DecidableEq

/-- One output column appended to the plan: a whole bound entity
(`add_entity`) or a (possibly aggregated) resolved column (`add_columns`). -/
inductive ProjectedOut where
  | entity (a : Alias)
  | col (e : ProjEntity)
  | aggCol (fn : AggFunc) (e : ProjEntity)
  deriving BEq, Repr

/-- `_add_to_projections` (main.py lines 524-564): `*` projects the whole
bound entity and refuses an aggregate function; otherwise the resolved
entity is wrapped according to `func`. The branch for `func = 'min'` applies
`sa_func.max`, exactly as the source does on line 559. -/
def _add_to_projections (al : Alias) (projectable_entity_name : String)
    (cast : Option String) (func : Option String) : Except String ProjectedOut := do
  let column_name := (pySplitDot projectable_entity_name).headD projectable_entity_name
  let attr_key := (pySplitDot projectable_entity_name).tail
  if column_name == "*" then
    if func.isSome then
      .error ("ValueError: functions on the aliased class will not work")
    else
      pure (ProjectedOut.entity al)
  else do
    let entity_to_project ← _get_projectable_entity al column_name attr_key cast
    match func with
    | Option.none => pure (ProjectedOut.col entity_to_project)
    | some fn =>
      if fn == "max" then pure (ProjectedOut.aggCol AggFunc.maxA entity_to_project)
      else if fn == "min" then pure (ProjectedOut.aggCol AggFunc.maxA entity_to_project)
      else if fn == "count" then pure (ProjectedOut.aggCol AggFunc.countA entity_to_project)
      else .error ("ValueError: Invalid function specification " ++ fn)

/-- The `cast`/`func` extra specification of one projection item. -/
structure ExtraSpec where
  cast : Option String := Option.none
  func : Option String := Option.none
  deriving BEq, Repr

/-- The per-field ordering specification (`cast` and `order` keys; an absent
key is `Option.none`). -/
structure OrderFieldSpec where
  cast : Option String := Option.none
  order : Option String := Option.none
  deriving BEq, Repr

/-- One ordering output attached to the query. -/
structure OrderedEntity where
  entity : ProjEntity
  desc : Bool
  deriving BEq, Repr

/-- A recorded filter specification: mapping of key to value
(combinator lists and operator mappings are `PyValue`s). -/
abbrev FilterSpec := List (String × PyValue)

/-- One projection item mapping: projected name to its extra specification. -/
abbrev ProjDict := List (String × ExtraSpec)

/-- One vertex of the query path (`QueryDictType` path entries). The first
vertex carries no `joining_keyword`/`joining_value`; `edge_tag` is the key
accessed directly during the join phase. -/
structure PathVertex where
  tag : String
  orm_base : String
  joining_keyword : Option String := Option.none
  joining_value : Option String := Option.none
  edge_tag : Option String := Option.none
  outerjoin : Bool := false
  deriving BEq, Repr

/-- `QueryDictType`: the backend-agnostic query specification handed to
`update_query` (`path`, `filters`, `project`, `order_by`, `offset`, `limit`,
`distinct`). -/
structure QueryDict where
  path : List PathVertex := []
  filters : List (String × FilterSpec) := []
  project : List (String × List ProjDict) := []
  order_by : List (List (String × List (List (String × OrderFieldSpec)))) := []
  offset : Option Int := Option.none
  limit : Option Int := Option.none
  distinct : Bool := false
  deriving BEq, Repr

/-- Modelled from the spec: the per-join strategy selected by the `SqlaJoiner`
dispatch table (§4.3); a strategy may produce an edge alias (many-to-many and
transitive-closure joins) of a given entity kind. -/
structure JoinStrategy where
  producesEdge : Bool := false
  edgeCls : String := "link"
  edgeHasManager : Bool := true
  deriving BEq, Repr

/-- Modelled from the spec: the `SqlaJoiner` collaborator's dispatch, keyed by
(source entity kind, relation keyword); an unregistered pair is a `KeyError`
that `_build_join_func` converts into a `ValueError` (§4.3). -/
abbrev JoinerMap := String → String → Option JoinStrategy

/-- One join applied to the query: the strategy inputs recorded by the
embedded join phase (the physical join itself belongs to the collaborator). -/
structure JoinRec where
  keyword : String
  callingEntity : String
  joinFrom : Alias
  joinTo : Alias
  isOuter : Bool
  filterHint : FilterSpec
  expandPath : Bool
  edge : Option Alias
  deriving BEq, Repr

/-- The compiled plan: the query object accumulated during `_build`
(`session.query(firstalias)` start entity, joins, attached filter
predicates, output columns, ordering, paging, distinct). -/
structure QueryPlan where
  initialEntity : Option Alias := Option.none
  joins : List JoinRec := []
  filtersApplied : List SqlExpr := []
  projected : List ProjectedOut := []
  orderBy : List OrderedEntity := []
  limit : Option Int := Option.none
  offset : Option Int := Option.none
  distinct : Bool := false
  deriving BEq, Repr

/-- The builder instance state (`SqlaQueryBuilder.__init__` caching
attributes): tag-to-alias bindings, the two projection maps, the stored
specification, the cached query and its hash, plus the fresh-alias counter
that witnesses alias object identity. -/
structure BuilderState where
  tagToAlias : List (String × Alias) := []
  projectionIndexToField : Option (List (Nat × String)) := Option.none
  tagToProjectedFields : List (String × List (String × Nat)) := []
  data : QueryDict := {}
  query : QueryPlan := {}
  hashVal : Option Nat := Option.none
  aliasCounter : Nat := 0
  deriving BEq, Repr

/-- The entity kinds registered in `rebuild_aliases`'s `cls_map`
(`EntityTypes` values). -/
def validOrmBases : List String :=
  ["authinfo", "comment", "computer", "group", "node", "log", "user"]

/-- The vertex loop of `rebuild_aliases`: a fresh alias per path vertex
(duplicate tags overwrite), an unknown `orm_base` is a `KeyError`. -/
def rebuildAliasesAux : List PathVertex → List (String × Alias) → Nat →
    Except String (List (String × Alias) × Nat)
  | [], acc, ctr => .ok (acc, ctr)
  | v :: rest, acc, ctr =>
    if validOrmBases.contains v.orm_base then
      rebuildAliasesAux rest
        (assocUpsert v.tag { id := ctr, cls := v.orm_base, hasManager := true } acc) (ctr + 1)
    else
      .error ("KeyError: unknown orm_base " ++ v.orm_base)

/-- `rebuild_aliases` (main.py lines 302-315): discard the tag-to-alias map
and bind a fresh alias for every path vertex. -/
def rebuild_aliases (st : BuilderState) : Except String BuilderState := do
  let (m, ctr) ← rebuildAliasesAux st.data.path [] st.aliasCounter
  pure { st with tagToAlias := m, aliasCounter := ctr }

/-- `_get_tag_alias` (main.py lines 317-322): dictionary access raising
`KeyError` for an unknown tag (the `None` assertion branch is unreachable
here because the embedding only ever binds real aliases). -/
def _get_tag_alias (st : BuilderState) (tag : String) : Except String Alias :=
  match st.tagToAlias.lookup tag with
  | some a => .ok a
  | Option.none => .error ("KeyError: " ++ tag)

/-- One join of the join phase of `_build` (main.py lines 337-356), in source
order: alias of the vertex, direct access to `joining_keyword` and
`joining_value`, joiner dispatch (`_build_join_func`), alias of the joined
tag, direct access to `edge_tag`, the filter hint, the `expand_path`
inspection of the edge-tag's filters and projections, then the join itself
and the registration of a produced edge alias. -/
def joinVertex (joiner : JoinerMap) (st : BuilderState) (plan : QueryPlan)
    (v : PathVertex) : Except String (QueryPlan × BuilderState) := do
  let join_to ← _get_tag_alias st v.tag
  let kw ← match v.joining_keyword with
    | some k => pure k
    | Option.none => Except.error ("KeyError: joining_keyword")
  let jv ← match v.joining_value with
    | some k => pure k
    | Option.none => Except.error ("KeyError: joining_value")
  let strat ← match joiner v.orm_base kw with
    | some s => pure s
    | Option.none =>
      Except.error ("ValueError: " ++ kw ++ " is not a valid joining keyword for a " ++
        v.orm_base ++ " type entity")
  let join_from ← match st.tagToAlias.lookup jv with
    | some a => pure a
    | Option.none => Except.error ("ValueError: joining_value tag " ++ jv ++ " not known")
  let edge_tag ← match v.edge_tag with
    | some e => pure e
    | Option.none => Except.error ("KeyError: edge_tag")
  let filter_dict := (st.data.filters.lookup jv).getD []
  let edgeFilters ← match st.data.filters.lookup edge_tag with
    | some f => pure f
    | Option.none => Except.error ("KeyError: " ++ edge_tag ++ " not in filters")
  let edgeProjects ← match st.data.project.lookup edge_tag with
    | some p => pure p
    | Option.none => Except.error ("KeyError: " ++ edge_tag ++ " not in project")
  let expand_path :=
    (match edgeFilters.lookup ("path") with
     | some PyValue.none => false
     | some _ => true
     | Option.none => false) ||
    edgeProjects.any fun d => d.any fun kv => kv.1 == "path"
  let edgeAlias : Alias :=
    { id := st.aliasCounter, cls := strat.edgeCls, hasManager := strat.edgeHasManager }
  let aliased_edge := if strat.producesEdge then some edgeAlias else (Option.none : Option Alias)
  let st' :=
    if strat.producesEdge then
      { st with tagToAlias := assocUpsert edge_tag edgeAlias st.tagToAlias,
                aliasCounter := st.aliasCounter + 1 }
    else st
  let jr : JoinRec :=
    { keyword := kw, callingEntity := v.orm_base, joinFrom := join_from, joinTo := join_to,
      isOuter := v.outerjoin, filterHint := filter_dict, expandPath := expand_path,
      edge := aliased_edge }
  pure ({ plan with joins := plan.joins ++ [jr] }, st')

/-- The join loop over `path[1:]`. -/
def joinPhase (joiner : JoinerMap) (st : BuilderState) (plan : QueryPlan) :
    List PathVertex → Except String (QueryPlan × BuilderState)
  | [] => .ok (plan, st)
  | v :: rest => do
    let (plan', st') ← joinVertex joiner st plan v
    joinPhase joiner st' plan' rest

/-- The filter loop of `_build` (main.py lines 360-367): skip empty filter
specifications; an unknown tag is a `ValueError`; compiled predicates are
attached in order. -/
def filterPhase (st : BuilderState) (plan : QueryPlan) :
    List (String × FilterSpec) → Except String QueryPlan
  | [] => .ok plan
  | (tag, filter_specs) :: rest =>
    if filter_specs.isEmpty then filterPhase st plan rest
    else do
      let al ← match st.tagToAlias.lookup tag with
        | some a => pure a
        | Option.none => Except.error ("ValueError: Unknown tag " ++ tag ++ " in filters")
      let e ← build_filters al filter_specs
      filterPhase st { plan with filtersApplied := plan.filtersApplied ++ [e] } rest

/-- The accumulator of the projection phase: the growing plan, the
tag-to-projected-fields map, and the running `projection_count`. -/
structure ProjAcc where
  plan : QueryPlan
  tagMap : List (String × List (String × Nat))
  count : Nat
  deriving BEq, Repr

/-- One resolved property name appended to the projections (main.py lines
517-520): add the output column, record the name against the running count
in the tag's field map (a duplicate name overwrites its slot), increment. -/
def addOneProjection (al : Alias) (tag : String) (property_name : String)
    (extra : ExtraSpec) (acc : ProjAcc) : Except String ProjAcc := do
  let po ← _add_to_projections al property_name extra.cast extra.func
  let inner := (acc.tagMap.lookup tag).getD []
  pure { plan := { acc.plan with projected := acc.plan.projected ++ [po] },
         tagMap := assocUpsert tag (assocUpsert property_name acc.count inner) acc.tagMap,
         count := acc.count + 1 }

/-- The inner loop over the expanded property names of one projection item. -/
def addProjections (al : Alias) (tag : String) (extra : ExtraSpec) :
    List String → ProjAcc → Except String ProjAcc
  | [], acc => .ok acc
  | n :: rest, acc => do
    let acc' ← addOneProjection al tag n extra acc
    addProjections al tag extra rest acc'

/-- The loop over the (name, extra) items of one projection mapping (main.py
lines 509-520): `**` expands to all (remapped) column names, any other name
is remapped alone. -/
def projSpecItems (al : Alias) (tag : String) : ProjDict → ProjAcc → Except String ProjAcc
  | [], acc => .ok acc
  | (projectable_entity_name, extraspec) :: rest, acc => do
    let property_names ←
      if projectable_entity_name == "**" then modify_expansions al (get_column_names al)
      else modify_expansions al [projectable_entity_name]
    let acc' ← addProjections al tag extraspec property_names acc
    projSpecItems al tag rest acc'

/-- The loop over the list of projection mappings of one tag. -/
def projSpecs (al : Alias) (tag : String) : List ProjDict → ProjAcc → Except String ProjAcc
  | [], acc => .ok acc
  | spec :: rest, acc => do
    let acc' ← projSpecItems al tag spec acc
    projSpecs al tag rest acc'

/-- `_build_projections` (main.py lines 490-522): default to the tag's
requested items, return unchanged when there is nothing to project, reset the
tag's field map, then process every item. -/
def _build_projections (st : BuilderState) (tag : String) (acc : ProjAcc)
    (items_to_project : Option (List ProjDict)) : Except String ProjAcc := do
  let project_dict :=
    match items_to_project with
    | Option.none => (st.data.project.lookup tag).getD []
    | some items => items
  if project_dict.isEmpty then pure acc
  else do
    let al ← _get_tag_alias st tag
    let acc := { acc with tagMap := assocUpsert tag [] acc.tagMap }
    projSpecs al tag project_dict acc

/-- `any(self._data['project'].values())`: some tag has a projection item. -/
def anyProjects (project : List (String × List ProjDict)) : Bool :=
  project.any fun p => !p.2.isEmpty

/-- The vertex loop of the projection phase. -/
def projVertices (st : BuilderState) : List PathVertex → ProjAcc → Except String ProjAcc
  | [], acc => .ok acc
  | v :: rest, acc => do
    let acc' ← _build_projections st v.tag acc Option.none
    projVertices st rest acc'

/-- The edge-tag loop of the projection phase (over `path[1:]`). -/
def projEdges (st : BuilderState) : List PathVertex → ProjAcc → Except String ProjAcc
  | [], acc => .ok acc
  | v :: rest, acc => do
    let acc' ← match v.edge_tag with
      | some et => _build_projections st et acc Option.none
      | Option.none => pure acc
    projEdges st rest acc'

/-- The projection phase of `_build` (main.py lines 375-403): with no
projection requested anywhere, project the whole entity of the last path
vertex; otherwise build per-vertex projections then per-edge-tag
projections. -/
def buildProjectionsPhase (st : BuilderState) (plan : QueryPlan) : Except String ProjAcc := do
  let acc0 : ProjAcc := { plan := plan, tagMap := [], count := 0 }
  if !anyProjects st.data.project then
    match st.data.path.getLast? with
    | some lastv => _build_projections st lastv.tag acc0 (some [[("*", {})]])
    | Option.none => .error ("IndexError: path is empty")
  else do
    let acc1 ← projVertices st st.data.path acc0
    projEdges st st.data.path.tail acc1

/-- `_build_order_by` (main.py lines 472-488): a non-empty attribute path
without a `cast` key is the ambiguous-cast `ValueError`; otherwise resolve
and attach ascending or descending order (an unknown `order` key raises). -/
def _build_order_by (al : Alias) (field_key : String) (entityspec : OrderFieldSpec)
    (plan : QueryPlan) : Except String QueryPlan := do
  let column_name := (pySplitDot field_key).headD field_key
  let attrpath := (pySplitDot field_key).tail
  if !attrpath.isEmpty && entityspec.cast.isNone then
    .error ("ValueError: To order_by " ++ field_key ++
      " the value has to be cast, but no cast key has been specified")
  else do
    let entity ← _get_projectable_entity al column_name attrpath entityspec.cast
    let order := entityspec.order.getD ("asc")
    if order == "desc" then
      pure { plan with orderBy := plan.orderBy ++ [{ entity := entity, desc := true }] }
    else if order == "asc" then
      pure { plan with orderBy := plan.orderBy ++ [{ entity := entity, desc := false }] }
    else
      .error ("ValueError: Unknown order key " ++ order ++ ", must be asc or desc")

/-- The innermost ordering loop (field key to specification). -/
def orderEntityDict (al : Alias) (plan : QueryPlan) :
    List (String × OrderFieldSpec) → Except String QueryPlan
  | [] => .ok plan
  | (entitytag, entityspec) :: rest => do
    let plan' ← _build_order_by al entitytag entityspec plan
    orderEntityDict al plan' rest

/-- The loop over the entity dictionaries of one ordered tag. -/
def orderEntityList (al : Alias) (plan : QueryPlan) :
    List (List (String × OrderFieldSpec)) → Except String QueryPlan
  | [] => .ok plan
  | d :: rest => do
    let plan' ← orderEntityDict al plan d
    orderEntityList al plan' rest

/-- The loop over the tags of one `order_by` item (`_get_tag_alias` raises a
raw `KeyError` for an unknown tag here). -/
def orderSpecItems (st : BuilderState) (plan : QueryPlan) :
    List (String × List (List (String × OrderFieldSpec))) → Except String QueryPlan
  | [] => .ok plan
  | (tag, entity_list) :: rest => do
    let al ← _get_tag_alias st tag
    let plan' ← orderEntityList al plan entity_list
    orderSpecItems st plan' rest

/-- The ordering phase of `_build` (main.py lines 406-411). -/
def orderPhase (st : BuilderState) (plan : QueryPlan) :
    List (List (String × List (List (String × OrderFieldSpec)))) → Except String QueryPlan
  | [] => .ok plan
  | order_spec :: rest => do
    let plan' ← orderSpecItems st plan order_spec
    orderPhase st plan' rest

/-- The inner loop of the index comprehension: upsert each (field, position)
entry under its position. -/
def innerIndexFold : List (String × Nat) → List (Nat × String) → List (Nat × String)
  | [], acc => acc
  | kv :: rest, acc => innerIndexFold rest (assocUpsert kv.2 kv.1 acc)

/-- The outer loop of the index comprehension over the tags. -/
def indexFold : List (String × List (String × Nat)) → List (Nat × String) → List (Nat × String)
  | [], acc => acc
  | p :: rest, acc => indexFold rest (innerIndexFold p.2 acc)

/-- The `projection_index_to_field` dictionary comprehension (main.py lines
437-440): position to field key, over every tag's projected fields in
insertion order (a repeated position overwrites, like a dict key). -/
def buildIndex (tagMap : List (String × List (String × Nat))) : List (Nat × String) :=
  indexFold tagMap []

/-- `_build` (main.py lines 324-449): rebuild aliases, start the query on the
first path vertex, join the remaining vertices, attach filters, build
projections, ordering and paging, pop the starting entity, derive the
position-to-field index, fail when the accumulated projection count exceeds
the distinct index slots, and apply `distinct`. Returns the plan, the
accumulated `projection_count` (exposed for specification purposes) and the
updated state. -/
def _build (joiner : JoinerMap) (st : BuilderState) :
    Except String (QueryPlan × Nat × BuilderState) := do
  let st ← rebuild_aliases st
  let firstv ← match st.data.path.head? with
    | some v => pure v
    | Option.none => Except.error ("IndexError: path is empty")
  let firstalias ← _get_tag_alias st firstv.tag
  let plan0 : QueryPlan := { initialEntity := some firstalias }
  let (plan1, st) ← joinPhase joiner st plan0 st.data.path.tail
  let plan2 ← filterPhase st plan1 st.data.filters
  let acc ← buildProjectionsPhase st plan2
  let plan3 ← orderPhase st acc.plan st.data.order_by
  let plan4 := { plan3 with limit := st.data.limit, offset := st.data.offset }
  let plan5 := { plan4 with initialEntity := Option.none }
  let index := buildIndex acc.tagMap
  if acc.count > index.length then
    .error ("ValueError: You are projecting the same key multiple times within the same node")
  else do
    let plan6 := if st.data.distinct then { plan5 with distinct := true } else plan5
    let st := { st with tagToProjectedFields := acc.tagMap,
                        projectionIndexToField := some index,
                        query := plan6 }
    pure (plan6, acc.count, st)

/-- Python truthiness of `self._query`: a `Query` instance defines no
falsiness, so the check `if self._query and ...` never fails on the query
object itself. -/
def queryTruthy (_ : QueryPlan) : Bool :=
  true

/-- `update_query` (main.py lines 282-300): hash the specification (the
content hash `make_hash` lives outside this core and is passed in as `h`);
a matching cached hash returns the cached query unchanged, otherwise the
data is stored, the query rebuilt in full and the new hash recorded. -/
def update_query (h : QueryDict → Nat) (joiner : JoinerMap) (st : BuilderState)
    (data : QueryDict) : Except String (QueryPlan × BuilderState) :=
  let query_hash := h data
  let hit := queryTruthy st.query &&
    (match st.hashVal with
     | some hh => hh == query_hash
     | Option.none => false)
  if hit then .ok (st.query, st)
  else do
    let st := { st with data := data }
    let (plan, _count, st') ← _build joiner st
    pure (plan, { st' with hashVal := some query_hash })

/-- A raw value in a result row as handed over by the execution collaborator:
a UUID, a database model instance, or a plain scalar. -/
inductive RawVal where
  | uuidV (s : String)
  | entityV (cls : String) (ident : Nat)
  | scalarV (v : PyValue)
  deriving BEq, Repr

/-- A raw result row: either a single non-sequence item (what the collaborator
yields for a whole-entity query) or a positional sequence of values. -/
inductive RawRow where
  | single (v : RawVal)
  | row (xs : List RawVal)
  deriving BEq, Repr

/-- The values returned to the caller after `to_backend` conversion. -/
inductive BackendVal where
  | strV (s : String)
  | backendEntity (cls : String) (ident : Nat)
  | rawV (v : RawVal)
  | rawRow (xs : List RawVal)
  deriving BEq, Repr

/-- `to_backend` (main.py lines 1009-1025): UUIDs become strings, model
instances become backend entities (a collaborator conversion, modelled
opaquely), anything else is returned unchanged via the caught `TypeError`. -/
def to_backend : RawVal → BackendVal
  | .uuidV s => .strV s
  | .entityV c i => .backendEntity c i
  | .scalarV v => .rawV (.scalarV v)

/-- `to_backend` applied to a whole row item: a sequence triggers the caught
`TypeError` inside `get_backend_entity` and is returned unchanged. -/
def to_backend_item : RawRow → BackendVal
  | .single v => to_backend v
  | .row xs => .rawRow xs

/-- The post-processing of `first` (main.py lines 195-204): `None` results
return early (handled by the caller); a non-sequence result is wrapped into a
one-element list; a falsy projection index or a length mismatch raises. -/
def first_postprocess (idx : Option (List (Nat × String))) (raw : RawRow) :
    Except String (List BackendVal) :=
  let result := match raw with
    | .row xs => xs
    | .single v => [v]
  match idx with
  | Option.none =>
    .error ("Exception: length of query result does not match the number of specified projections")
  | some l =>
    if l.isEmpty || result.length != l.length then
      .error ("Exception: length of query result does not match the number of specified projections")
    else
      .ok (result.map to_backend)

/-- The outcome of one public method call: the propagated result and whether
the session was closed before an error propagated. -/
structure MethodOutcome (α : Type) where
  result : Except String α
  sessionClosed : Bool

/-- `count` (main.py lines 171-177): build the query outside the `try`; the
collaborator's count runs inside it, closing the session before re-raising on
failure. -/
def count (h : QueryDict → Nat) (joiner : JoinerMap)
    (execCount : QueryPlan → Except String Int) (st : BuilderState) (data : QueryDict) :
    MethodOutcome Int × BuilderState :=
  match update_query h joiner st data with
  | .error e => ({ result := .error e, sessionClosed := false }, st)
  | .ok (q, st') =>
    match execCount q with
    | .ok n => ({ result := .ok n, sessionClosed := false }, st')
    | .error e => ({ result := .error e, sessionClosed := true }, st')

/-- `first` (main.py lines 187-204): build outside the `try`, fetch inside it
(closing the session on failure), then post-process the fetched row outside
the `try` (a post-processing failure propagates without closing). -/
def first (h : QueryDict → Nat) (joiner : JoinerMap)
    (execFirst : QueryPlan → Except String (Option RawRow)) (st : BuilderState)
    (data : QueryDict) : MethodOutcome (Option (List BackendVal)) × BuilderState :=
  match update_query h joiner st data with
  | .error e => ({ result := .error e, sessionClosed := false }, st)
  | .ok (q, st') =>
    match execFirst q with
    | .error e => ({ result := .error e, sessionClosed := true }, st')
    | .ok Option.none => ({ result := .ok Option.none, sessionClosed := false }, st')
    | .ok (some raw) =>
      match first_postprocess st'.projectionIndexToField raw with
      | .error e => ({ result := .error e, sessionClosed := false }, st')
      | .ok vals => ({ result := .ok (some vals), sessionClosed := false }, st')

/-- The row conversions of `iterall`'s single-projection unpacking branch
(`for rowitem, in results`). -/
def unpackSingleton : RawRow → Except String RawVal
  | .row [x] => .ok x
  | .row [] => .error ("ValueError: not enough values to unpack")
  | .row (_ :: _ :: _) => .error ("ValueError: too many values to unpack")
  | .single _ => .error ("TypeError: cannot unpack non-sequence")

/-- The row loop of `iterall` (main.py lines 216-230) over the fetched rows,
in the three branches of the source: single `*` projection, single column
projection, multiple projections. -/
def iterallRows (d : List (Nat × String)) : List RawRow →
    Except String (List (List BackendVal))
  | [] => .ok []
  | r :: rest => do
    let vals ←
      if d.length == 1 then
        if d.map (fun kv => kv.2) == ["*"] then
          pure [to_backend_item r]
        else do
          let x ← unpackSingleton r
          pure [to_backend x]
      else
        match r with
        | .row xs => pure (xs.map to_backend)
        | .single _ => Except.error ("TypeError: cannot iterate a non-sequence row")
    let tail ← iterallRows d rest
    pure (vals :: tail)

/-- `iterall` (main.py lines 206-233): build outside the `try`; inside it an
empty projection index raises, rows are fetched and converted per branch; any
failure inside the `try` closes the session before propagating. The lazy
generator is modelled eagerly: batch-boundary suspension is the
collaborator's concern (§5). -/
def iterall (h : QueryDict → Nat) (joiner : JoinerMap)
    (execRows : QueryPlan → Except String (List RawRow)) (st : BuilderState)
    (data : QueryDict) : MethodOutcome (List (List BackendVal)) × BuilderState :=
  match update_query h joiner st data with
  | .error e => ({ result := .error e, sessionClosed := false }, st)
  | .ok (q, st') =>
    let body : Except String (List (List BackendVal)) := do
      let d ← match st'.projectionIndexToField with
        | some l =>
          if l.isEmpty then Except.error ("Exception: Got an empty dictionary")
          else pure l
        | Option.none => Except.error ("Exception: Got an empty dictionary")
      let results ← execRows q
      if d.length ≥ 1 then iterallRows d results
      else Except.error ("ValueError: Got an empty dictionary")
    match body with
    | .ok rows => ({ result := .ok rows, sessionClosed := false }, st')
    | .error e => ({ result := .error e, sessionClosed := true }, st')

/-- `sum(len(v) for v in self._tag_to_projected_fields.values())`. -/
def sumInner : List (String × List (String × Nat)) → Nat
  | [] => 0
  | p :: rest => p.2.length + sumInner rest

/-- Positional indexing `this_result[index_in_sql_result]` of a raw row. -/
def rowIndex (r : RawRow) (idx : Nat) : Except String RawVal :=
  match r with
  | .row xs =>
    match xs.get? idx with
    | some x => .ok x
    | Option.none => .error ("IndexError: row index out of range")
  | .single _ => .error ("TypeError: row is not subscriptable")

/-- The per-tag dictionary of one `iterdict` result row in the
multi-projection branch: field names are remapped inner-to-outer per the
tag's table. -/
def iterdictFields (st : BuilderState) (r : RawRow) (tag : String) :
    List (String × Nat) → Except String (List (String × BackendVal))
  | [] => .ok []
  | (attrkey, idx) :: rest => do
    let al ← _get_tag_alias st tag
    let v ← rowIndex r idx
    let tail ← iterdictFields st r tag rest
    pure ((get_corresponding_property (tableName al.cls) attrkey inner_to_outer_schema,
      to_backend v) :: tail)

/-- One result row of `iterdict` in the multi-projection branch. -/
def iterdictRowMulti (st : BuilderState) (r : RawRow) :
    List (String × List (String × Nat)) →
    Except String (List (String × List (String × BackendVal)))
  | [] => .ok []
  | (tag, inner) :: rest => do
    let fields ← iterdictFields st r tag inner
    let tail ← iterdictRowMulti st r rest
    pure ((tag, fields) :: tail)

/-- One result row of `iterdict` in the single-projection branches, where the
value assigned to every projected field of every tag is the converted row
item itself. -/
def iterdictRowSingle (st : BuilderState) (value : BackendVal) :
    List (String × List (String × Nat)) →
    Except String (List (String × List (String × BackendVal)))
  | [] => .ok []
  | (tag, inner) :: rest => do
    let al ← _get_tag_alias st tag
    let fields := inner.map fun kv =>
      (get_corresponding_property (tableName al.cls) kv.1 inner_to_outer_schema, value)
    let tail ← iterdictRowSingle st value rest
    pure ((tag, fields) :: tail)

/-- The row loop of `iterdict` (main.py lines 245-275). -/
def iterdictRows (st : BuilderState) (nr_items : Nat) (starProjected : Bool) :
    List RawRow → Except String (List (List (String × List (String × BackendVal))))
  | [] => .ok []
  | r :: rest => do
    let d ←
      if nr_items > 1 then
        iterdictRowMulti st r st.tagToProjectedFields
      else if starProjected then
        iterdictRowSingle st (to_backend_item r) st.tagToProjectedFields
      else do
        let x ← unpackSingleton r
        iterdictRowSingle st (to_backend x) st.tagToProjectedFields
    let tail ← iterdictRows st nr_items starProjected rest
    pure (d :: tail)

/-- `iterdict` (main.py lines 235-280): build outside the `try`; inside it a
zero projection count raises, rows are fetched and converted per branch with
inner-to-outer field renaming; any failure inside the `try` closes the
session before propagating. Modelled eagerly like `iterall`. -/
def iterdict (h : QueryDict → Nat) (joiner : JoinerMap)
    (execRows : QueryPlan → Except String (List RawRow)) (st : BuilderState)
    (data : QueryDict) :
    MethodOutcome (List (List (String × List (String × BackendVal)))) × BuilderState :=
  match update_query h joiner st data with
  | .error e => ({ result := .error e, sessionClosed := false }, st)
  | .ok (q, st') =>
    let body : Except String (List (List (String × List (String × BackendVal)))) := do
      let nr_items := sumInner st'.tagToProjectedFields
      if nr_items == 0 then Except.error ("ValueError: Got an empty dictionary")
      else do
        let results ← execRows q
        let starProjected :=
          (st'.tagToProjectedFields.foldl (fun acc p => acc ++ p.2.map Prod.fst) []) == ["*"]
        iterdictRows st' nr_items starProjected results
    match body with
    | .ok rows => ({ result := .ok rows, sessionClosed := false }, st')
    | .error e => ({ result := .error e, sessionClosed := true }, st')

/-! ## Shared concrete fixtures and helper lemmas -/

/-- A bound node alias used by concrete instantiations. -/
def nodeAlias : Alias :=
  { id := 0, cls := "node", hasManager := true }

/-- The `attributes` column of `nodeAlias`. -/
def attrsColumn : Column :=
  { aliasId := 0, name := "attributes" }

/-- The addressed entity `attributes -> x` of `nodeAlias`. -/
def attrsEntity : JsonbEntity :=
  { col := attrsColumn, path := ["x"] }

/-- A joiner dispatch with no registered pairs (single-vertex specifications
never consult it). -/
def noJoiner : JoinerMap :=
  fun _ _ => Option.none

/-- A single-vertex specification with no explicit projection. -/
def specN : QueryDict :=
  { path := [{ tag := "n", orm_base := "node" }] }

/-- `specN` with an offset: differs from `specN` in exactly one field. -/
def specNOffset : QueryDict :=
  { path := [{ tag := "n", orm_base := "node" }], offset := some 10 }

/-- A hash model distinguishing the two fixture specifications. -/
def specHash : QueryDict → Nat :=
  fun d => match d.offset with
  | some _ => 1
  | Option.none => 0

/-- C1 — For every projection item carrying an aggregate function, the
resolved column is wrapped by that function, with `min` and `max` as distinct
operations: `max` and `count` indeed wrap with the maximum and count
aggregates, but `func = 'min'` wraps with the *maximum* aggregate
(`sa_func.max`, main.py line 559), contradicting the claim that `min`
applies the minimum aggregate. -/
theorem C1_min_aggregate_applies_max :
  _add_to_projections nodeAlias ("id") Option.none (some ("min")) =
    .ok (ProjectedOut.aggCol AggFunc.maxA (ProjEntity.plainCol { aliasId := 0, name := "id" })) ∧
  _add_to_projections nodeAlias ("id") Option.none (some ("max")) =
    .ok (ProjectedOut.aggCol AggFunc.maxA (ProjEntity.plainCol { aliasId := 0, name := "id" })) ∧
  _add_to_projections nodeAlias ("id") Option.none (some ("count")) =
    .ok (ProjectedOut.aggCol AggFunc.countA (ProjEntity.plainCol { aliasId := 0, name := "id" })) :=
  ⟨rfl, rfl, rfl⟩

/-- C2 — Type-tag inference of semi-structured leaf filters: bool, int,
float, str and dict map to `boolean`, `number`, `number`, `string` and
`object` as claimed, but `None` is tagged `object` (not `null`: the `null`
branch on main.py line 895 is unreachable behind the
`isinstance(value, dict) or value is None` branch on line 886) and a list
value raises `TypeError` (the `array` branch on line 889 tests `dict` and is
unreachable), contradicting the claimed `None -> null` and `list -> array`
mappings and the claim that no supported value type fails. -/
theorem C2_type_tag_inference_none_and_list :
  cast_according_to_type attrsEntity PyValue.none =
    .ok (.typeofIs attrsEntity ("object"), .castJsonb) ∧
  cast_according_to_type attrsEntity (PyValue.list [PyValue.int 1]) =
    .error ("TypeError: Unknown type list") ∧
  cast_according_to_type attrsEntity (PyValue.bool true) =
    .ok (.typeofIs attrsEntity ("boolean"), .castBoolean) ∧
  cast_according_to_type attrsEntity (PyValue.int 3) =
    .ok (.typeofIs attrsEntity ("number"), .castFloat) ∧
  cast_according_to_type attrsEntity (PyValue.float 3) =
    .ok (.typeofIs attrsEntity ("number"), .castFloat) ∧
  cast_according_to_type attrsEntity (PyValue.str ("s")) =
    .ok (.typeofIs attrsEntity ("string"), .astext) ∧
  cast_according_to_type attrsEntity (PyValue.dict []) =
    .ok (.typeofIs attrsEntity ("object"), .castJsonb) :=
  ⟨rfl, rfl, rfl, rfl, rfl, rfl, rfl⟩

/-- C5 counterexample — resolving the field path `attributes.x` (non-empty
attribute path) for a projection with no cast does *not* fail: it returns the
raw addressed JSONB value, so the claimed hard error does not hold at every
resolution site. -/
theorem C5_counterexample :
  get_projectable_attribute nodeAlias ("attributes") (["x"]) Option.none =
    .ok (ProjEntity.jsonbRaw { col := { aliasId := 0, name := "attributes" }, path := ["x"] }) :=
  rfl

/-- C5 (amended) — An ordering request whose attribute path is non-empty and
whose specification carries no cast fails with the ambiguous-cast error; a
projection resolution of a resolvable column with a non-empty attribute path
and no cast succeeds, returning the raw semi-structured value. -/
theorem C5_castless_attribute_paths :
  (∀ (al : Alias) (field_key : String) (spec : OrderFieldSpec) (plan : QueryPlan),
    (pySplitDot field_key).tail ≠ [] →
    spec.cast = Option.none →
    _build_order_by al field_key spec plan =
      .error ("ValueError: To order_by " ++ field_key ++
        " the value has to be cast, but no cast key has been specified")) ∧
  (∀ (al : Alias) (column_name : String) (attrpath : List String) (c : Column),
    get_column column_name al = .ok c →
    get_projectable_attribute al column_name attrpath Option.none =
      .ok (ProjEntity.jsonbRaw { col := c, path := attrpath })) := by
  constructor
  · intro al field_key spec plan htail hcast
    unfold _build_order_by
    have h1 : ((pySplitDot field_key).tail).isEmpty = false := by
      cases h : (pySplitDot field_key).tail with
      | nil => exact absurd h htail
      | cons a l => simp [List.isEmpty]
    simp [h1, hcast]
  · intro al column_name attrpath c hcol
    unfold get_projectable_attribute
    simp [hcol]

/-- C5 witness — the amended statement at the concrete ordering request
`attributes.x` with no cast, and the concrete projection resolution of
`attributes.x` on a node alias. -/
theorem C5_castless_attribute_paths_witness :
  _build_order_by nodeAlias ("attributes.x") {} {} =
    .error ("ValueError: To order_by attributes.x" ++
      " the value has to be cast, but no cast key has been specified") ∧
  get_projectable_attribute nodeAlias ("attributes") (["x"]) Option.none =
    .ok (ProjEntity.jsonbRaw { col := attrsColumn, path := ["x"] }) := by
  constructor
  · exact C5_castless_attribute_paths.1 nodeAlias ("attributes.x") {} {} (by decide) rfl
  · exact C5_castless_attribute_paths.2 nodeAlias ("attributes") (["x"]) attrsColumn rfl

/-- The runtime type tag checked by the guard of a compiled guarded
predicate. -/
def guardTagOf : SqlExpr → Option String
  | .caseElseFalse (.typeofIs _ tag) _ => some tag
  | _ => Option.none

/-- The type filter produced by `cast_according_to_type` is always a
`jsonb_typeof` comparison on the addressed entity. -/
theorem cast_tf_shape {ent : JsonbEntity} {value : PyValue} {tf : SqlExpr} {ck : CastKind}
    (h : cast_according_to_type ent value = .ok (tf, ck)) :
    ∃ tag, tf = SqlExpr.typeofIs ent tag := by
  unfold cast_according_to_type at h
  split_ifs at h <;> simp_all <;> exact ⟨_, h.1.symm⟩

/-- Evaluating a guarded predicate whose guard tag differs from the stored
value's runtime type tag yields `false` without evaluating the comparison. -/
theorem evalExpr_guard_false (stored : PyValue) (ent : JsonbEntity) (tag : String)
    (thn : SqlExpr) (h : jsonbTypeof stored ≠ tag) :
    evalExpr stored (.caseElseFalse (.typeofIs ent tag) thn) = .ok false := by
  have hb : (jsonbTypeof stored == tag) = false := by
    simp only [beq_eq_false_iff_ne, ne_eq]
    exact h
  simp [evalExpr, hb]
  rfl

/-- Common conclusion for a compiled predicate guarded by the tag inferred
through `cast_according_to_type`. -/
theorem guardedConclusion {ent : JsonbEntity} {value : PyValue} {tf : SqlExpr}
    {ck : CastKind} {thn e : SqlExpr}
    (hc : cast_according_to_type ent value = .ok (tf, ck))
    (he : e = SqlExpr.caseElseFalse tf thn) :
    ∃ tag, guardTagOf e = some tag ∧
      ∀ stored : PyValue, jsonbTypeof stored ≠ tag → evalExpr stored e = .ok false := by
  obtain ⟨tag, rfl⟩ := cast_tf_shape hc
  subst he
  exact ⟨tag, rfl, fun stored hs => evalExpr_guard_false stored ent tag thn hs⟩

/-- Common conclusion for a compiled predicate guarded by the `array` tag. -/
theorem arrayGuardedConclusion {ent : JsonbEntity} {thn e : SqlExpr}
    (he : e = SqlExpr.caseElseFalse (SqlExpr.typeofIs ent ("array")) thn) :
    ∃ tag, guardTagOf e = some tag ∧
      ∀ stored : PyValue, jsonbTypeof stored ≠ tag → evalExpr stored e = .ok false := by
  subst he
  exact ⟨"array", rfl, fun stored hs => evalExpr_guard_false stored ent ("array") thn hs⟩

/-- The comparison operators of a semi-structured leaf whose compiled
predicate carries a runtime type guard. -/
def guardedJsonbOps : List String :=
  ["==", ">", "<", ">=", "=>", "<=", "=<", "like", "ilike", "in",
   "of_length", "longer", "shorter"]

/-- C3 — For every semi-structured leaf comparison (`==`, `>`, `<`, `>=`,
`<=`, their `=>`/`=<` aliases, `like`, `ilike`, `in`, and the array-length
operators `of_length`/`longer`/`shorter`), the compiled predicate carries a
runtime type guard, and whenever the stored value's runtime type tag differs
from the guarded tag (the tag inferred from the filter value), the predicate
evaluates to `false` at evaluation time and never raises. -/
theorem C3_type_mismatch_evaluates_false :
  ∀ op : String, op ∈ guardedJsonbOps →
  ∀ (value : PyValue) (attr_key : List String) (col : Column) (e : SqlExpr),
  get_filter_expr_from_jsonb op value attr_key (some col) Option.none Option.none = .ok e →
  ∃ tag, guardTagOf e = some tag ∧
    ∀ stored : PyValue, jsonbTypeof stored ≠ tag → evalExpr stored e = .ok false := by
  intro op hop value attr_key col e hcompile
  simp only [guardedJsonbOps, List.mem_cons, List.mem_singleton, List.not_mem_nil,
    or_false] at hop
  rcases hop with rfl | rfl | rfl | rfl | rfl | rfl | rfl | rfl | rfl | rfl | rfl | rfl | rfl <;>
    simp only [get_filter_expr_from_jsonb, pure, Except.pure, bind, Except.bind] at hcompile <;>
    simp at hcompile
  all_goals
    first
    | exact arrayGuardedConclusion hcompile.symm
    | exact arrayGuardedConclusion hcompile
    | (cases hv : value.pyIndexZero with
       | error err => rw [hv] at hcompile; cases hcompile
       | ok v0 =>
         rw [hv] at hcompile; simp at hcompile
         cases hc : cast_according_to_type { col := col, path := attr_key } v0 with
         | error err => rw [hc] at hcompile; cases hcompile
         | ok tfck =>
           rw [hc] at hcompile; simp at hcompile
           exact guardedConclusion hc hcompile.symm)
    | (cases hc : cast_according_to_type { col := col, path := attr_key } value with
       | error err => rw [hc] at hcompile; cases hcompile
       | ok tfck =>
         rw [hc] at hcompile; simp at hcompile
         exact guardedConclusion hc hcompile.symm)

/-- C3 witness — the instantiated conclusion for `==` against filter value
`5` on `attributes.x`: the compiled predicate guards on `number` and
evaluates to `false` for every stored value of a different runtime type. -/
theorem C3_type_mismatch_evaluates_false_witness :
  ∃ tag, guardTagOf (SqlExpr.caseElseFalse (SqlExpr.typeofIs attrsEntity ("number"))
      (SqlExpr.jsonbCmp CmpOp.eq attrsEntity CastKind.castFloat (PyValue.int 5))) = some tag ∧
    ∀ stored : PyValue, jsonbTypeof stored ≠ tag →
      evalExpr stored (SqlExpr.caseElseFalse (SqlExpr.typeofIs attrsEntity ("number"))
        (SqlExpr.jsonbCmp CmpOp.eq attrsEntity CastKind.castFloat (PyValue.int 5))) =
        .ok false :=
  C3_type_mismatch_evaluates_false ("==") (by decide) (PyValue.int 5) (["x"]) attrsColumn
    (SqlExpr.caseElseFalse (SqlExpr.typeofIs attrsEntity ("number"))
      (SqlExpr.jsonbCmp CmpOp.eq attrsEntity CastKind.castFloat (PyValue.int 5))) rfl

/-- C4 counterexample — `in` with the non-empty, type-homogeneous list
`[[1]]` (every element a list) on a semi-structured path fails with the
unknown-type error from type inference instead of succeeding, so compiling
with a non-empty single-type list does not always succeed as claimed. -/
theorem C4_counterexample :
  (typeSet [PyValue.list [PyValue.int 1]]).length = 1 ∧
  get_filter_expr ("in") (PyValue.list [PyValue.list [PyValue.int 1]]) [] true Option.none
    (some attrsColumn) Option.none = .error ("TypeError: Unknown type list") :=
  ⟨rfl, rfl⟩

/-- C4 (amended) — For every `in` leaf filter: an empty list and a list with
more than one element type fail with a hard error at build time (before any
execution); a non-empty single-type list succeeds in the scalar column
context, and in the semi-structured context it succeeds provided the first
element's type is supported by type inference. -/
theorem C4_in_value_validation :
  (∀ (attr_key : List String) (is_jsonb : Bool) (al : Option Alias)
      (column : Option Column) (cn : Option String),
    get_filter_expr ("in") (PyValue.list []) attr_key is_jsonb al column cn =
      .error ("ValueError: Value for operator in is an empty list")) ∧
  (∀ (xs : List PyValue) (attr_key : List String) (is_jsonb : Bool) (al : Option Alias)
      (column : Option Column) (cn : Option String),
    (typeSet xs).length > 1 →
    get_filter_expr ("in") (PyValue.list xs) attr_key is_jsonb al column cn =
      .error ("ValueError: Value for operator in contains more than one type")) ∧
  (∀ (xs : List PyValue) (attr_key : List String) (c : Column) (al : Option Alias)
      (cn : Option String),
    (typeSet xs).length = 1 →
    get_filter_expr ("in") (PyValue.list xs) attr_key false al (some c) cn =
      .ok (SqlExpr.colCmp ("in") c (PyValue.list xs))) ∧
  (∀ (x : PyValue) (xs : List PyValue) (attr_key : List String) (c : Column)
      (al : Option Alias) (cn : Option String) (tf : SqlExpr) (ck : CastKind),
    (typeSet (x :: xs)).length = 1 →
    cast_according_to_type { col := c, path := attr_key } x = .ok (tf, ck) →
    get_filter_expr ("in") (PyValue.list (x :: xs)) attr_key true al (some c) cn =
      .ok (SqlExpr.caseElseFalse tf
        (SqlExpr.jsonbIn { col := c, path := attr_key } ck (PyValue.list (x :: xs))))) := by
  have hstrip : stripNegation ("in") = ("in", false) := rfl
  refine ⟨?_, ?_, ?_, ?_⟩
  · intro attr_key is_jsonb al column cn
    rfl
  · intro xs attr_key is_jsonb al column cn h
    have hie : (typeSet xs).isEmpty = false := by
      cases hts : typeSet xs with
      | nil => rw [hts] at h; simp at h
      | cons a l => rfl
    rw [get_filter_expr, hstrip]
    simp [gfeLeafChecks, inOperatorCheck, PyValue.pyIter, hie, h, bind, Except.bind]
  · intro xs attr_key c al cn h
    have hie : (typeSet xs).isEmpty = false := by
      cases hts : typeSet xs with
      | nil => rw [hts] at h; simp at h
      | cons a l => rfl
    have hgt : ¬ (typeSet xs).length > 1 := by omega
    rw [get_filter_expr, hstrip]
    simp [gfeLeafChecks, inOperatorCheck, PyValue.pyIter, hie, hgt, gfeFinish,
      gfeDispatch, get_filter_expr_from_column, bind, Except.bind, pure, Except.pure]
  · intro x xs attr_key c al cn tf ck h hc
    have hie : (typeSet (x :: xs)).isEmpty = false := by
      cases hts : typeSet (x :: xs) with
      | nil => rw [hts] at h; simp at h
      | cons a l => rfl
    have hgt : ¬ (typeSet (x :: xs)).length > 1 := by omega
    rw [get_filter_expr, hstrip]
    simp [gfeLeafChecks, inOperatorCheck, PyValue.pyIter, hie, hgt, gfeFinish,
      gfeDispatch, get_filter_expr_from_jsonb, PyValue.pyIndexZero, hc, bind, Except.bind,
      pure, Except.pure]

/-- C4 witness — the amended statement at concrete inputs: `in []` and
`in [1, "a"]` fail at build time, `in [1, 2]` compiles in the scalar context,
and `in [1, 2]` compiles with a `number` guard in the semi-structured
context. -/
theorem C4_in_value_validation_witness :
  get_filter_expr ("in") (PyValue.list []) [] false Option.none Option.none Option.none =
    .error ("ValueError: Value for operator in is an empty list") ∧
  get_filter_expr ("in") (PyValue.list [PyValue.int 1, PyValue.str ("a")]) [] false
      Option.none (some attrsColumn) Option.none =
    .error ("ValueError: Value for operator in contains more than one type") ∧
  get_filter_expr ("in") (PyValue.list [PyValue.int 1, PyValue.int 2]) [] false
      Option.none (some attrsColumn) Option.none =
    .ok (SqlExpr.colCmp ("in") attrsColumn (PyValue.list [PyValue.int 1, PyValue.int 2])) ∧
  get_filter_expr ("in") (PyValue.list [PyValue.int 1, PyValue.int 2]) (["x"]) true
      Option.none (some attrsColumn) Option.none =
    .ok (SqlExpr.caseElseFalse (SqlExpr.typeofIs attrsEntity ("number"))
      (SqlExpr.jsonbIn attrsEntity CastKind.castFloat
        (PyValue.list [PyValue.int 1, PyValue.int 2]))) := by
  refine ⟨?_, ?_, ?_, ?_⟩
  · exact C4_in_value_validation.1 [] false Option.none Option.none Option.none
  · exact C4_in_value_validation.2.1 [PyValue.int 1, PyValue.str ("a")] [] false
      Option.none (some attrsColumn) Option.none (by decide)
  · exact C4_in_value_validation.2.2.1 [PyValue.int 1, PyValue.int 2] [] attrsColumn
      Option.none Option.none (by decide)
  · exact C4_in_value_validation.2.2.2 (PyValue.int 1) [PyValue.int 2] (["x"]) attrsColumn
      Option.none Option.none (SqlExpr.typeofIs attrsEntity ("number")) CastKind.castFloat
      (by decide) rfl

/-- `rebuild_aliases` changes only the alias map and the counter. -/
theorem rebuild_aliases_parts {st st1 : BuilderState}
    (h : rebuild_aliases st = .ok st1) :
    st1.data = st.data ∧ st1.projectionIndexToField = st.projectionIndexToField ∧
      st1.tagToProjectedFields = st.tagToProjectedFields ∧ st1.query = st.query ∧
      st1.hashVal = st.hashVal := by
  unfold rebuild_aliases at h
  cases haux : rebuildAliasesAux st.data.path [] st.aliasCounter with
  | error e => rw [haux] at h; cases h
  | ok p => rw [haux] at h; simp [bind, Except.bind, pure, Except.pure] at h
            rw [← h]; exact ⟨rfl, rfl, rfl, rfl, rfl⟩

/-- One join step changes neither the stored data nor the plan's output
columns. -/
theorem joinVertex_parts {joiner : JoinerMap} {st : BuilderState} {plan plan' : QueryPlan}
    {st' : BuilderState} {v : PathVertex}
    (h : joinVertex joiner st plan v = .ok (plan', st')) :
    plan'.projected = plan.projected ∧ st'.data = st.data := by
  unfold joinVertex at h
  simp only [bind, Except.bind, pure, Except.pure] at h
  repeat' split at h
  all_goals (try cases h)
  all_goals exact ⟨rfl, rfl⟩

/-- The join phase changes neither the stored data nor the plan's output
columns. -/
theorem joinPhase_parts {joiner : JoinerMap} :
    ∀ {vs : List PathVertex} {st : BuilderState} {plan plan' : QueryPlan}
      {st' : BuilderState},
    joinPhase joiner st plan vs = .ok (plan', st') →
    plan'.projected = plan.projected ∧ st'.data = st.data := by
  intro vs
  induction vs with
  | nil =>
    intro st plan plan' st' h
    unfold joinPhase at h
    cases h
    exact ⟨rfl, rfl⟩
  | cons v rest ih =>
    intro st plan plan' st' h
    unfold joinPhase at h
    simp only [bind, Except.bind] at h
    cases hv : joinVertex joiner st plan v with
    | error e => rw [hv] at h; cases h
    | ok p =>
      rw [hv] at h
      obtain ⟨h1, h2⟩ := joinVertex_parts hv
      obtain ⟨h3, h4⟩ := ih h
      exact ⟨h3.trans h1, h4.trans h2⟩

/-- The filter phase does not change the plan's output columns. -/
theorem filterPhase_projected {st : BuilderState} :
    ∀ {fs : List (String × FilterSpec)} {plan plan' : QueryPlan},
    filterPhase st plan fs = .ok plan' →
    plan'.projected = plan.projected := by
  intro fs
  induction fs with
  | nil =>
    intro plan plan' h
    unfold filterPhase at h
    cases h
    rfl
  | cons p rest ih =>
    intro plan plan' h
    unfold filterPhase at h
    simp only [bind, Except.bind] at h
    split at h
    · exact ih h
    · repeat' split at h
      all_goals (try cases h)
      · exact (ih h).trans rfl

/-- `_build_order_by` does not change the plan's output columns. -/
theorem _build_order_by_projected {al : Alias} {fk : String} {spec : OrderFieldSpec}
    {plan plan' : QueryPlan}
    (h : _build_order_by al fk spec plan = .ok plan') :
    plan'.projected = plan.projected := by
  unfold _build_order_by at h
  simp only [bind, Except.bind, pure, Except.pure] at h
  repeat' split at h
  all_goals (try cases h)
  all_goals rfl

/-- The innermost ordering loop does not change the plan's output columns. -/
theorem orderEntityDict_projected {al : Alias} :
    ∀ {d : List (String × OrderFieldSpec)} {plan plan' : QueryPlan},
    orderEntityDict al plan d = .ok plan' →
    plan'.projected = plan.projected := by
  intro d
  induction d with
  | nil =>
    intro plan plan' h
    unfold orderEntityDict at h
    cases h
    rfl
  | cons p rest ih =>
    intro plan plan' h
    unfold orderEntityDict at h
    simp only [bind, Except.bind] at h
    cases hb : _build_order_by al p.1 p.2 plan with
    | error e => rw [hb] at h; cases h
    | ok plan1 =>
      rw [hb] at h
      exact (ih h).trans (_build_order_by_projected hb)

/-- The per-tag ordering loop does not change the plan's output columns. -/
theorem orderEntityList_projected {al : Alias} :
    ∀ {ds : List (List (String × OrderFieldSpec))} {plan plan' : QueryPlan},
    orderEntityList al plan ds = .ok plan' →
    plan'.projected = plan.projected := by
  intro ds
  induction ds with
  | nil =>
    intro plan plan' h
    unfold orderEntityList at h
    cases h
    rfl
  | cons d rest ih =>
    intro plan plan' h
    unfold orderEntityList at h
    simp only [bind, Except.bind] at h
    cases hb : orderEntityDict al plan d with
    | error e => rw [hb] at h; cases h
    | ok plan1 =>
      rw [hb] at h
      exact (ih h).trans (orderEntityDict_projected hb)

/-- The ordering loop over one `order_by` item does not change the plan's
output columns. -/
theorem orderSpecItems_projected {st : BuilderState} :
    ∀ {items : List (String × List (List (String × OrderFieldSpec)))}
      {plan plan' : QueryPlan},
    orderSpecItems st plan items = .ok plan' →
    plan'.projected = plan.projected := by
  intro items
  induction items with
  | nil =>
    intro plan plan' h
    unfold orderSpecItems at h
    cases h
    rfl
  | cons p rest ih =>
    intro plan plan' h
    unfold orderSpecItems at h
    simp only [bind, Except.bind] at h
    split at h
    · cases h
    · rename_i al hal
      split at h
      · cases h
      · rename_i plan1 hplan1
        exact (ih h).trans (orderEntityList_projected hplan1)

/-- The ordering phase does not change the plan's output columns. -/
theorem orderPhase_projected {st : BuilderState} :
    ∀ {specs : List (List (String × List (List (String × OrderFieldSpec))))}
      {plan plan' : QueryPlan},
    orderPhase st plan specs = .ok plan' →
    plan'.projected = plan.projected := by
  intro specs
  induction specs with
  | nil =>
    intro plan plan' h
    unfold orderPhase at h
    cases h
    rfl
  | cons sp rest ih =>
    intro plan plan' h
    unfold orderPhase at h
    simp only [bind, Except.bind] at h
    cases hb : orderSpecItems st plan sp with
    | error e => rw [hb] at h; cases h
    | ok plan1 =>
      rw [hb] at h
      exact (ih h).trans (orderSpecItems_projected hb)

/-- Remapping the single name `*` through the outer-to-inner schema leaves it
unchanged for every table. -/
theorem gcp_star (t : String) :
    get_corresponding_properties t (["*"]) outer_to_inner_schema = ["*"] := by
  unfold get_corresponding_properties get_corresponding_property outer_to_inner_schema
  cases h1 : t == "db_dbcomputer" <;> cases h2 : t == "db_dblog" <;>
    simp [List.lookup, h1, h2]

/-- `modify_expansions` leaves a sole `*` projection name unchanged. -/
theorem modify_expansions_star (al : Alias) :
    modify_expansions al (["*"]) = .ok (["*"]) := by
  unfold modify_expansions
  split
  · simp [gcp_star]
  · rfl

/-- Projecting `*` without a function adds the whole bound entity. -/
theorem add_star (al : Alias) :
    _add_to_projections al ("*") Option.none Option.none = .ok (ProjectedOut.entity al) := rfl

/-- With no projection requested anywhere, the projection phase projects
exactly the whole entity of the last path vertex, producing one projection
slot at position zero under field key `*`. -/
theorem buildProjectionsPhase_default {st : BuilderState} {plan : QueryPlan}
    {lastv : PathVertex} {a : Alias}
    (hnp : anyProjects st.data.project = false)
    (hlast : st.data.path.getLast? = some lastv)
    (ha : List.lookup lastv.tag st.tagToAlias = some a) :
    buildProjectionsPhase st plan =
      .ok { plan := { plan with projected := plan.projected ++ [ProjectedOut.entity a] },
            tagMap := [(lastv.tag, [("*", 0)])], count := 1 } := by
  unfold buildProjectionsPhase
  rw [hnp, hlast]
  simp only [Bool.not_false, if_true]
  unfold _build_projections
  simp only [List.isEmpty, bind, Except.bind, pure, Except.pure]
  unfold _get_tag_alias
  rw [ha]
  simp [projSpecs, projSpecItems, addProjections, addOneProjection, add_star,
    modify_expansions_star, assocUpsert, List.lookup, bind, Except.bind, pure, Except.pure]

/-- With no projection requested anywhere and no alias bound for the last
path vertex, the projection phase fails with the raw `KeyError`. -/
theorem buildProjectionsPhase_default_err {st : BuilderState} {plan : QueryPlan}
    {lastv : PathVertex}
    (hnp : anyProjects st.data.project = false)
    (hlast : st.data.path.getLast? = some lastv)
    (ha : List.lookup lastv.tag st.tagToAlias = Option.none) :
    buildProjectionsPhase st plan = .error ("KeyError: " ++ lastv.tag) := by
  unfold buildProjectionsPhase
  rw [hnp, hlast]
  simp only [Bool.not_false, if_true]
  unfold _build_projections
  simp only [List.isEmpty, bind, Except.bind, pure, Except.pure]
  unfold _get_tag_alias
  rw [ha]
  simp

/-- C7 — For every specification in which no tag has any projection item, a
successful build projects exactly one item: the whole entity (`*`) of the
last vertex in `path`, with a single projection slot `0 -> *`; consequently
the post-processing of `first` on a fetched single (non-sequence) raw value
returns a one-element list holding that value's backend conversion. -/
theorem C7_default_projection :
  ∀ (joiner : JoinerMap) (st st' : BuilderState) (plan : QueryPlan) (cnt : Nat)
    (lastv : PathVertex),
  anyProjects st.data.project = false →
  st.data.path.getLast? = some lastv →
  _build joiner st = .ok (plan, cnt, st') →
  ∃ a, List.lookup lastv.tag st'.tagToAlias = some a ∧
    plan.projected = [ProjectedOut.entity a] ∧ cnt = 1 ∧
    st'.projectionIndexToField = some [(0, "*")] ∧
    st'.tagToProjectedFields = [(lastv.tag, [("*", 0)])] ∧
    ∀ v : RawVal, first_postprocess st'.projectionIndexToField (RawRow.single v) =
      .ok [to_backend v] := by
  intro joiner st st' plan cnt lastv hnp hlast hbuild
  unfold _build at hbuild
  simp only [bind, Except.bind, pure, Except.pure] at hbuild
  cases h1 : rebuild_aliases st with
  | error e => rw [h1] at hbuild; cases hbuild
  | ok st1 =>
    rw [h1] at hbuild; dsimp only at hbuild
    obtain ⟨hd1, _, _, _, _⟩ := rebuild_aliases_parts h1
    cases h2 : st1.data.path.head? with
    | none => rw [h2] at hbuild; cases hbuild
    | some firstv =>
      rw [h2] at hbuild; dsimp only at hbuild
      cases h3 : _get_tag_alias st1 firstv.tag with
      | error e => rw [h3] at hbuild; cases hbuild
      | ok fa =>
        rw [h3] at hbuild; dsimp only at hbuild
        cases h4 : joinPhase joiner st1 { initialEntity := some fa } st1.data.path.tail with
        | error e => rw [h4] at hbuild; cases hbuild
        | ok p1 =>
          rw [h4] at hbuild; dsimp only at hbuild
          obtain ⟨hproj1, hdata2⟩ := joinPhase_parts h4
          cases h5 : filterPhase p1.2 p1.1 p1.2.data.filters with
          | error e => rw [h5] at hbuild; cases hbuild
          | ok plan2 =>
            rw [h5] at hbuild; dsimp only at hbuild
            have hproj2 : plan2.projected = [] :=
              (filterPhase_projected h5).trans hproj1
            have hnp2 : anyProjects p1.2.data.project = false := by
              rw [hdata2, hd1]; exact hnp
            have hlast2 : p1.2.data.path.getLast? = some lastv := by
              rw [hdata2, hd1]; exact hlast
            cases ha : List.lookup lastv.tag p1.2.tagToAlias with
            | none =>
              rw [buildProjectionsPhase_default_err hnp2 hlast2 ha] at hbuild
              cases hbuild
            | some a =>
              rw [buildProjectionsPhase_default hnp2 hlast2 ha] at hbuild; dsimp only at hbuild
              cases h6 : orderPhase p1.2
                  { plan2 with projected := plan2.projected ++ [ProjectedOut.entity a] }
                  p1.2.data.order_by with
              | error e => rw [h6] at hbuild; cases hbuild
              | ok plan3 =>
                rw [h6] at hbuild; dsimp only at hbuild
                have hproj3 : plan3.projected = [ProjectedOut.entity a] := by
                  rw [orderPhase_projected h6]
                  simp [hproj2]
                simp only [buildIndex, indexFold, innerIndexFold, assocUpsert] at hbuild
                simp at hbuild
                split at hbuild <;>
                  (obtain ⟨hP, hC, hS⟩ := hbuild
                   subst hP
                   subst hS
                   exact ⟨a, ha, hproj3, hC.symm, rfl, rfl, fun v => rfl⟩)

/-- C7 witness — the default-projection conclusion at the concrete
single-vertex node specification. -/
theorem C7_default_projection_witness :
  ∃ plan cnt st', _build noJoiner { data := specN } = .ok (plan, cnt, st') ∧
    ∃ a, List.lookup ("n") st'.tagToAlias = some a ∧
      plan.projected = [ProjectedOut.entity a] ∧ cnt = 1 ∧
      st'.projectionIndexToField = some [(0, "*")] ∧
      st'.tagToProjectedFields = [("n", [("*", 0)])] ∧
      ∀ v : RawVal, first_postprocess st'.projectionIndexToField (RawRow.single v) =
        .ok [to_backend v] := by
  refine ⟨_, _, _, rfl, ?_⟩
  exact C7_default_projection noJoiner { data := specN } _ _ _
    { tag := "n", orm_base := "node" } rfl rfl rfl

theorem length_assocUpsert_le {κ α : Type} [BEq κ] (k : κ) (v : α) :
    ∀ l : List (κ × α), (assocUpsert k v l).length ≤ l.length + 1 := by
  intro l
  induction l with
  | nil => simp [assocUpsert]
  | cons p rest ih =>
    unfold assocUpsert
    split
    · simp
    · simpa using Nat.add_le_add_right ih 1

/-- The inner index fold adds at most one entry per projected field. -/
theorem innerIndexFold_length_le :
    ∀ (inner : List (String × Nat)) (acc : List (Nat × String)),
    (innerIndexFold inner acc).length ≤ acc.length + inner.length := by
  intro inner
  induction inner with
  | nil => intro acc; simp [innerIndexFold]
  | cons kv rest ih =>
    intro acc
    unfold innerIndexFold
    calc (innerIndexFold rest (assocUpsert kv.2 kv.1 acc)).length
        ≤ (assocUpsert kv.2 kv.1 acc).length + rest.length := ih _
      _ ≤ (acc.length + 1) + rest.length :=
          Nat.add_le_add_right (length_assocUpsert_le kv.2 kv.1 acc) rest.length
      _ = acc.length + (rest.length + 1) := by omega

/-- The index fold adds at most `sumInner` entries. -/
theorem indexFold_length_le :
    ∀ (m : List (String × List (String × Nat))) (acc : List (Nat × String)),
    (indexFold m acc).length ≤ acc.length + sumInner m := by
  intro m
  induction m with
  | nil => intro acc; simp [indexFold, sumInner]
  | cons p rest ih =>
    intro acc
    unfold indexFold sumInner
    calc (indexFold rest (innerIndexFold p.2 acc)).length
        ≤ (innerIndexFold p.2 acc).length + sumInner rest := ih _
      _ ≤ (acc.length + p.2.length) + sumInner rest :=
          Nat.add_le_add_right (innerIndexFold_length_le p.2 acc) (sumInner rest)
      _ = acc.length + (p.2.length + sumInner rest) := by omega

/-- The position-to-field index has at most as many entries as the
tag-to-projected-fields map. -/
theorem buildIndex_length_le (m : List (String × List (String × Nat))) :
    (buildIndex m).length ≤ sumInner m := by
  simpa using indexFold_length_le m []

/-- Upserting a tag entry exchanges the old entry size for the new one in
the total field count. -/
theorem sumInner_assocUpsert (t : String) (x : List (String × Nat)) :
    ∀ m : List (String × List (String × Nat)),
    sumInner (assocUpsert t x m) + ((List.lookup t m).getD []).length =
      sumInner m + x.length := by
  intro m
  induction m with
  | nil => simp [assocUpsert, sumInner, List.lookup]
  | cons p rest ih =>
    by_cases hk : p.1 = t
    · have h1 : (p.1 == t) = true := by simp [hk]
      have h2 : (t == p.1) = true := by simp [hk]
      cases p with
      | mk k2 v2 =>
        simp only [assocUpsert, sumInner, List.lookup] at *
        simp [h1, h2, sumInner]
        omega
    · have h1 : (p.1 == t) = false := by simp [hk]
      have h2 : (t == p.1) = false := by
        simp only [beq_eq_false_iff_ne, ne_eq]
        exact fun hh => hk hh.symm
      cases p with
      | mk k2 v2 =>
        simp only [assocUpsert, sumInner, List.lookup] at *
        simp [h1, h2, sumInner]
        omega

/-- One projected property keeps the field total bounded by the running
projection count. -/
theorem addOneProjection_inv {al : Alias} {tag n : String} {extra : ExtraSpec}
    {acc acc' : ProjAcc} (h : addOneProjection al tag n extra acc = .ok acc')
    (hinv : sumInner acc.tagMap ≤ acc.count) :
    sumInner acc'.tagMap ≤ acc'.count := by
  unfold addOneProjection at h
  simp only [bind, Except.bind, pure, Except.pure] at h
  cases hp : _add_to_projections al n extra.cast extra.func with
  | error e => rw [hp] at h; cases h
  | ok po =>
    rw [hp] at h
    dsimp only at h
    cases h
    dsimp only
    have hsum := sumInner_assocUpsert tag
      (assocUpsert n acc.count ((List.lookup tag acc.tagMap).getD [])) acc.tagMap
    have hlen := length_assocUpsert_le n acc.count ((List.lookup tag acc.tagMap).getD [])
    omega

/-- The property-name loop preserves the field-count invariant. -/
theorem addProjections_inv {al : Alias} {tag : String} {extra : ExtraSpec} :
    ∀ {names : List String} {acc acc' : ProjAcc},
    addProjections al tag extra names acc = .ok acc' →
    sumInner acc.tagMap ≤ acc.count →
    sumInner acc'.tagMap ≤ acc'.count := by
  intro names
  induction names with
  | nil =>
    intro acc acc' h hinv
    unfold addProjections at h
    cases h
    exact hinv
  | cons n rest ih =>
    intro acc acc' h hinv
    unfold addProjections at h
    simp only [bind, Except.bind] at h
    split at h
    · cases h
    · rename_i acc1 h1
      exact ih h (addOneProjection_inv h1 hinv)

/-- The projection-item loop preserves the field-count invariant. -/
theorem projSpecItems_inv {al : Alias} {tag : String} :
    ∀ {items : ProjDict} {acc acc' : ProjAcc},
    projSpecItems al tag items acc = .ok acc' →
    sumInner acc.tagMap ≤ acc.count →
    sumInner acc'.tagMap ≤ acc'.count := by
  intro items
  induction items with
  | nil =>
    intro acc acc' h hinv
    unfold projSpecItems at h
    cases h
    exact hinv
  | cons p rest ih =>
    intro acc acc' h hinv
    unfold projSpecItems at h
    simp only [bind, Except.bind] at h
    repeat' split at h
    all_goals
      first
      | cases h
      | (rename_i acc1 h1
         exact ih h (addProjections_inv h1 hinv))

/-- The projection-mapping loop preserves the field-count invariant. -/
theorem projSpecs_inv {al : Alias} {tag : String} :
    ∀ {specs : List ProjDict} {acc acc' : ProjAcc},
    projSpecs al tag specs acc = .ok acc' →
    sumInner acc.tagMap ≤ acc.count →
    sumInner acc'.tagMap ≤ acc'.count := by
  intro specs
  induction specs with
  | nil =>
    intro acc acc' h hinv
    unfold projSpecs at h
    cases h
    exact hinv
  | cons sp rest ih =>
    intro acc acc' h hinv
    unfold projSpecs at h
    simp only [bind, Except.bind] at h
    split at h
    · cases h
    · rename_i acc1 h1
      exact ih h (projSpecItems_inv h1 hinv)

/-- `_build_projections` preserves the field-count invariant (the tag reset
only shrinks the total). -/
theorem _build_projections_inv {st : BuilderState} {tag : String}
    {items : Option (List ProjDict)} {acc acc' : ProjAcc}
    (h : _build_projections st tag acc items = .ok acc')
    (hinv : sumInner acc.tagMap ≤ acc.count) :
    sumInner acc'.tagMap ≤ acc'.count := by
  unfold _build_projections at h
  simp only [bind, Except.bind, pure, Except.pure] at h
  split at h
  · cases h
    exact hinv
  · split at h
    · cases h
    · rename_i al hal
      have hreset : sumInner (assocUpsert tag [] acc.tagMap) ≤ acc.count := by
        have hup := sumInner_assocUpsert tag [] acc.tagMap
        simp only [List.length_nil, Nat.add_zero] at hup
        omega
      exact projSpecs_inv h hreset

/-- The vertex projection loop preserves the field-count invariant. -/
theorem projVertices_inv {st : BuilderState} :
    ∀ {vs : List PathVertex} {acc acc' : ProjAcc},
    projVertices st vs acc = .ok acc' →
    sumInner acc.tagMap ≤ acc.count →
    sumInner acc'.tagMap ≤ acc'.count := by
  intro vs
  induction vs with
  | nil =>
    intro acc acc' h hinv
    unfold projVertices at h
    cases h
    exact hinv
  | cons v rest ih =>
    intro acc acc' h hinv
    unfold projVertices at h
    simp only [bind, Except.bind] at h
    split at h
    · cases h
    · rename_i acc1 h1
      exact ih h (_build_projections_inv h1 hinv)

/-- The edge-tag projection loop preserves the field-count invariant. -/
theorem projEdges_inv {st : BuilderState} :
    ∀ {vs : List PathVertex} {acc acc' : ProjAcc},
    projEdges st vs acc = .ok acc' →
    sumInner acc.tagMap ≤ acc.count →
    sumInner acc'.tagMap ≤ acc'.count := by
  intro vs
  induction vs with
  | nil =>
    intro acc acc' h hinv
    unfold projEdges at h
    cases h
    exact hinv
  | cons v rest ih =>
    intro acc acc' h hinv
    unfold projEdges at h
    simp only [bind, Except.bind] at h
    cases hv : v.edge_tag with
    | none =>
      rw [hv] at h
      dsimp only at h
      exact ih h hinv
    | some et =>
      rw [hv] at h
      dsimp only at h
      split at h
      · cases h
      · rename_i acc1 h1
        exact ih h (_build_projections_inv h1 hinv)

/-- After the whole projection phase, the total number of recorded fields is
bounded by the accumulated projection count. -/
theorem buildProjectionsPhase_inv {st : BuilderState} {plan : QueryPlan} {acc' : ProjAcc}
    (h : buildProjectionsPhase st plan = .ok acc') :
    sumInner acc'.tagMap ≤ acc'.count := by
  unfold buildProjectionsPhase at h
  simp only [bind, Except.bind] at h
  split at h
  · split at h
    · exact _build_projections_inv h (by simp [sumInner])
    · cases h
  · split at h
    · cases h
    · rename_i acc1 h1
      exact projEdges_inv h (projVertices_inv h1 (by simp [sumInner]))

/-- C8 — For every successful build, the number of entries in the
position-to-field projection index equals the projection count accumulated
while building projections; a build in which the accumulated count exceeds
the distinct index slots (a duplicate projected key within one tag) fails
instead of returning a plan, so no successful build violates the equality. -/
theorem C8_projection_index_matches_count :
  ∀ (joiner : JoinerMap) (st st' : BuilderState) (plan : QueryPlan) (cnt : Nat),
  _build joiner st = .ok (plan, cnt, st') →
  ∃ l, st'.projectionIndexToField = some l ∧ l.length = cnt := by
  intro joiner st st' plan cnt hbuild
  unfold _build at hbuild
  simp only [bind, Except.bind, pure, Except.pure] at hbuild
  cases h1 : rebuild_aliases st with
  | error e => rw [h1] at hbuild; cases hbuild
  | ok st1 =>
    rw [h1] at hbuild; dsimp only at hbuild
    cases h2 : st1.data.path.head? with
    | none => rw [h2] at hbuild; cases hbuild
    | some firstv =>
      rw [h2] at hbuild; dsimp only at hbuild
      cases h3 : _get_tag_alias st1 firstv.tag with
      | error e => rw [h3] at hbuild; cases hbuild
      | ok fa =>
        rw [h3] at hbuild; dsimp only at hbuild
        cases h4 : joinPhase joiner st1 { initialEntity := some fa } st1.data.path.tail with
        | error e => rw [h4] at hbuild; cases hbuild
        | ok p1 =>
          rw [h4] at hbuild; dsimp only at hbuild
          cases h5 : filterPhase p1.2 p1.1 p1.2.data.filters with
          | error e => rw [h5] at hbuild; cases hbuild
          | ok plan2 =>
            rw [h5] at hbuild; dsimp only at hbuild
            cases h6 : buildProjectionsPhase p1.2 plan2 with
            | error e => rw [h6] at hbuild; cases hbuild
            | ok acc =>
              rw [h6] at hbuild; dsimp only at hbuild
              cases h7 : orderPhase p1.2 acc.plan p1.2.data.order_by with
              | error e => rw [h7] at hbuild; cases hbuild
              | ok plan3 =>
                rw [h7] at hbuild; dsimp only at hbuild
                have hinv := buildProjectionsPhase_inv h6
                have hlen := buildIndex_length_le acc.tagMap
                split at hbuild
                · cases hbuild
                · rename_i hgt
                  split at hbuild <;>
                    (cases hbuild
                     exact ⟨buildIndex acc.tagMap, rfl, by omega⟩)

/-- C8 witness — the index/count equality at the concrete single-vertex node
specification. -/
theorem C8_projection_index_matches_count_witness :
  ∃ plan cnt st', _build noJoiner { data := specN } = .ok (plan, cnt, st') ∧
    ∃ l, st'.projectionIndexToField = some l ∧ l.length = cnt := by
  refine ⟨_, _, _, rfl, ?_⟩
  exact C8_projection_index_matches_count noJoiner { data := specN } _ _ _ rfl

theorem lookup_mem {α : Type} {k : String} {v : α} :
    ∀ {l : List (String × α)}, List.lookup k l = some v → (k, v) ∈ l := by
  intro l
  induction l with
  | nil => intro h; cases h
  | cons p rest ih =>
    intro h
    rcases p with ⟨k2, v2⟩
    unfold List.lookup at h
    split at h
    · rename_i heq
      cases h
      have hk : k = k2 := by simpa [beq_iff_eq] using heq
      subst hk
      exact List.mem_cons_self _ _
    · right
      exact ih h

/-- Entries after an upsert are the new entry or old entries. -/
theorem mem_assocUpsert {α : Type} {k : String} {v : α} {p : String × α} :
    ∀ {l : List (String × α)}, p ∈ assocUpsert k v l → p = (k, v) ∨ p ∈ l := by
  intro l
  induction l with
  | nil => intro h; simp [assocUpsert] at h; left; exact h
  | cons q rest ih =>
    intro h
    unfold assocUpsert at h
    split at h
    · rcases List.mem_cons.mp h with h1 | h1
      · left; exact h1
      · right; exact List.mem_cons_of_mem q h1
    · rcases List.mem_cons.mp h with h1 | h1
      · right; rw [h1]; exact List.mem_cons_self q rest
      · rcases ih h1 with h2 | h2
        · left; exact h2
        · right; exact List.mem_cons_of_mem q h2

/-- The alias rebuild loop only produces aliases with identifiers at or
above the starting counter. -/
theorem rebuildAliasesAux_fresh :
    ∀ {path : List PathVertex} {acc : List (String × Alias)} {ctr : Nat}
      {m : List (String × Alias)} {ctr' : Nat},
    rebuildAliasesAux path acc ctr = .ok (m, ctr') →
    ctr ≤ ctr' ∧ ∀ p ∈ m, p ∈ acc ∨ ctr ≤ p.2.id := by
  intro path
  induction path with
  | nil =>
    intro acc ctr m ctr' h
    unfold rebuildAliasesAux at h
    cases h
    exact ⟨Nat.le_refl _, fun p hp => Or.inl hp⟩
  | cons v rest ih =>
    intro acc ctr m ctr' h
    unfold rebuildAliasesAux at h
    split at h
    · obtain ⟨hle, hmem⟩ := ih h
      refine ⟨by omega, fun p hp => ?_⟩
      rcases hmem p hp with h1 | h1
      · rcases mem_assocUpsert h1 with h2 | h2
        · right; rw [h2]
        · left; exact h2
      · right; omega
    · cases h

/-- After `rebuild_aliases`, every bound alias is freshly created: its
identifier is at or above the pre-rebuild counter. -/
theorem rebuild_aliases_fresh {st st1 : BuilderState}
    (h : rebuild_aliases st = .ok st1) :
    st.aliasCounter ≤ st1.aliasCounter ∧
      ∀ p ∈ st1.tagToAlias, st.aliasCounter ≤ p.2.id := by
  unfold rebuild_aliases at h
  simp only [bind, Except.bind, pure, Except.pure] at h
  split at h
  · cases h
  · rename_i pr hpr
    cases h
    obtain ⟨hle, hmem⟩ := rebuildAliasesAux_fresh hpr
    refine ⟨hle, fun p hp => ?_⟩
    rcases hmem p hp with h1 | h1
    · cases h1
    · exact h1

/-- A join step only adds freshly created edge aliases. -/
theorem joinVertex_fresh {joiner : JoinerMap} {st : BuilderState} {plan plan' : QueryPlan}
    {st' : BuilderState} {v : PathVertex}
    (h : joinVertex joiner st plan v = .ok (plan', st')) :
    st.aliasCounter ≤ st'.aliasCounter ∧
      ∀ p ∈ st'.tagToAlias, p ∈ st.tagToAlias ∨ st.aliasCounter ≤ p.2.id := by
  unfold joinVertex at h
  simp only [bind, Except.bind, pure, Except.pure] at h
  repeat' split at h
  all_goals (try cases h)
  all_goals
    first
    | exact ⟨Nat.le_refl _, fun p hp => Or.inl hp⟩
    | (refine ⟨Nat.le_succ _, fun p hp => ?_⟩
       rcases mem_assocUpsert hp with h1 | h1
       · right
         rw [h1]
       · left
         exact h1)

/-- The join phase only adds freshly created edge aliases. -/
theorem joinPhase_fresh {joiner : JoinerMap} :
    ∀ {vs : List PathVertex} {st : BuilderState} {plan plan' : QueryPlan}
      {st' : BuilderState},
    joinPhase joiner st plan vs = .ok (plan', st') →
    st.aliasCounter ≤ st'.aliasCounter ∧
      ∀ p ∈ st'.tagToAlias, p ∈ st.tagToAlias ∨ st.aliasCounter ≤ p.2.id := by
  intro vs
  induction vs with
  | nil =>
    intro st plan plan' st' h
    unfold joinPhase at h
    cases h
    exact ⟨Nat.le_refl _, fun p hp => Or.inl hp⟩
  | cons v rest ih =>
    intro st plan plan' st' h
    unfold joinPhase at h
    simp only [bind, Except.bind] at h
    split at h
    · cases h
    · rename_i p1 hp1
      obtain ⟨hle1, hmem1⟩ := joinVertex_fresh hp1
      obtain ⟨hle2, hmem2⟩ := ih h
      refine ⟨by omega, fun p hp => ?_⟩
      rcases hmem2 p hp with h1 | h1
      · rcases hmem1 p h1 with h2 | h2
        · left; exact h2
        · right; omega
      · right; omega

/-- A successful `_build` stores the returned plan as the cached query, and
every alias binding it leaves behind was created during this build (its
identifier is at or above the pre-build counter). -/
theorem _build_parts {joiner : JoinerMap} {st st' : BuilderState} {plan : QueryPlan}
    {cnt : Nat} (hbuild : _build joiner st = .ok (plan, cnt, st')) :
    st'.query = plan ∧ ∀ p ∈ st'.tagToAlias, st.aliasCounter ≤ p.2.id := by
  unfold _build at hbuild
  simp only [bind, Except.bind, pure, Except.pure] at hbuild
  cases h1 : rebuild_aliases st with
  | error e => rw [h1] at hbuild; cases hbuild
  | ok st1 =>
    rw [h1] at hbuild; dsimp only at hbuild
    cases h2 : st1.data.path.head? with
    | none => rw [h2] at hbuild; cases hbuild
    | some firstv =>
      rw [h2] at hbuild; dsimp only at hbuild
      cases h3 : _get_tag_alias st1 firstv.tag with
      | error e => rw [h3] at hbuild; cases hbuild
      | ok fa =>
        rw [h3] at hbuild; dsimp only at hbuild
        cases h4 : joinPhase joiner st1 { initialEntity := some fa } st1.data.path.tail with
        | error e => rw [h4] at hbuild; cases hbuild
        | ok p1 =>
          rw [h4] at hbuild; dsimp only at hbuild
          cases h5 : filterPhase p1.2 p1.1 p1.2.data.filters with
          | error e => rw [h5] at hbuild; cases hbuild
          | ok plan2 =>
            rw [h5] at hbuild; dsimp only at hbuild
            cases h6 : buildProjectionsPhase p1.2 plan2 with
            | error e => rw [h6] at hbuild; cases hbuild
            | ok acc =>
              rw [h6] at hbuild; dsimp only at hbuild
              cases h7 : orderPhase p1.2 acc.plan p1.2.data.order_by with
              | error e => rw [h7] at hbuild; cases hbuild
              | ok plan3 =>
                rw [h7] at hbuild; dsimp only at hbuild
                have hfresh : ∀ p ∈ p1.2.tagToAlias, st.aliasCounter ≤ p.2.id := by
                  obtain ⟨hle1, hmem1⟩ := rebuild_aliases_fresh h1
                  obtain ⟨hle2, hmem2⟩ := joinPhase_fresh h4
                  intro p hp
                  rcases hmem2 p hp with hm | hm
                  · exact hmem1 p hm
                  · omega
                split at hbuild
                · cases hbuild
                · rename_i hgt
                  split at hbuild <;>
                    (cases hbuild
                     exact ⟨rfl, hfresh⟩)


/-- A successful `update_query` leaves the hash of the requested data and
the returned plan in the cache slots. -/
theorem update_query_stores {h : QueryDict → Nat} {joiner : JoinerMap}
    {st st' : BuilderState} {d : QueryDict} {q : QueryPlan}
    (hu : update_query h joiner st d = .ok (q, st')) :
    st'.hashVal = some (h d) ∧ st'.query = q := by
  unfold update_query at hu
  simp only [bind, Except.bind, pure, Except.pure, queryTruthy, Bool.true_and] at hu
  split at hu
  · rename_i hcond
    split at hcond
    · rename_i hh heq
      cases hu
      have hhd : hh = h d := by simpa [beq_iff_eq] using hcond
      rw [heq, hhd]
      exact ⟨rfl, rfl⟩
    · cases hcond
  · split at hu
    · cases hu
    · rename_i triple htriple
      cases hu
      exact ⟨rfl, (_build_parts htriple).1⟩

/-- C6 — After a successful `update_query`, a second call whose data hashes
identically returns the already-cached plan object with the state unchanged
(no rebuild, no alias re-creation); a call whose hash differs ignores the
old alias bindings entirely (the result is the same for any value of the
binding table), and on success stores the new hash and plan and binds only
freshly created aliases. -/
theorem C6_plan_cache :
  ∀ (h : QueryDict → Nat) (joiner : JoinerMap) (st st1 : BuilderState)
    (d1 d2 : QueryDict) (q1 : QueryPlan),
  update_query h joiner st d1 = .ok (q1, st1) →
  (h d2 = h d1 → update_query h joiner st1 d2 = .ok (q1, st1)) ∧
  (h d2 ≠ h d1 →
    (∀ X, update_query h joiner { st1 with tagToAlias := X } d2 =
      update_query h joiner st1 d2) ∧
    (∀ q2 st2, update_query h joiner st1 d2 = .ok (q2, st2) →
      st2.hashVal = some (h d2) ∧ st2.query = q2 ∧
      ∀ tag a, List.lookup tag st2.tagToAlias = some a → st1.aliasCounter ≤ a.id)) := by
  intro h joiner st st1 d1 d2 q1 hu1
  obtain ⟨hhash1, hquery1⟩ := update_query_stores hu1
  constructor
  · intro heq
    unfold update_query
    simp only [queryTruthy, Bool.true_and, hhash1, heq]
    simp [hquery1]
  · intro hne
    have hb : (h d1 == h d2) = false := by
      simp only [beq_eq_false_iff_ne, ne_eq]
      exact fun hh => hne hh.symm
    constructor
    · intro X
      unfold update_query
      simp only [queryTruthy, Bool.true_and, hhash1, hb]
      simp only [Bool.false_eq_true, if_false]
      congr 1
    · intro q2 st2 hu2
      obtain ⟨hh2, hq2⟩ := update_query_stores hu2
      refine ⟨hh2, hq2, fun tag a hla => ?_⟩
      unfold update_query at hu2
      simp only [queryTruthy, Bool.true_and, hhash1, hb, Bool.false_eq_true, if_false,
        bind, Except.bind, pure, Except.pure] at hu2
      split at hu2
      · cases hu2
      · rename_i triple htriple
        cases hu2
        exact (_build_parts htriple).2 (tag, a) (lookup_mem hla)

/-- C6 witness — the cache behaviour at the concrete fixture: a build of
`specN` from the initial state, an identical-hash replay returning the
cached plan unchanged, and an offset-changed spec rebuilding independently
of the old bindings with the new hash stored. -/
theorem C6_plan_cache_witness :
  ∃ q1 st1, update_query specHash noJoiner {} specN = .ok (q1, st1) ∧
    update_query specHash noJoiner st1 specN = .ok (q1, st1) ∧
    (∀ X, update_query specHash noJoiner { st1 with tagToAlias := X } specNOffset =
      update_query specHash noJoiner st1 specNOffset) ∧
    (∀ q2 st2, update_query specHash noJoiner st1 specNOffset = .ok (q2, st2) →
      st2.hashVal = some (specHash specNOffset) ∧ st2.query = q2 ∧
      ∀ tag a, List.lookup tag st2.tagToAlias = some a → st1.aliasCounter ≤ a.id) := by
  refine ⟨_, _, rfl, ?_, ?_, ?_⟩
  · exact (C6_plan_cache specHash noJoiner {} _ specN specN _ rfl).1 rfl
  · exact ((C6_plan_cache specHash noJoiner {} _ specN specNOffset _ rfl).2 (by decide)).1
  · exact ((C6_plan_cache specHash noJoiner {} _ specN specNOffset _ rfl).2 (by decide)).2

def specBadFilter : QueryDict :=
  { path := [{ tag := "n", orm_base := "node" }],
    filters := [("m", [("id", PyValue.int 1)])] }

/-- C9 counterexample — a failure raised while building the query (unknown
filter tag) propagates, but the session is *not* closed: `update_query` runs
outside the `try` block of `count` (main.py line 172), contradicting the
claimed release on all exit paths. -/
theorem C9_counterexample :
  (count (fun _ => 0) noJoiner (fun _ => .ok 0) {} specBadFilter).1.result =
    .error ("ValueError: Unknown tag m in filters") ∧
  (count (fun _ => 0) noJoiner (fun _ => .ok 0) {} specBadFilter).1.sessionClosed = false :=
  ⟨rfl, rfl⟩

/-- C9 (amended) — Every failure propagates unchanged to the caller. A
failure raised by the execution collaborator inside `count`, `first`,
`iterall` or `iterdict` closes the session before propagating; a failure
raised while building the query propagates without the session being
closed. -/
theorem C9_session_release :
  ∀ (h : QueryDict → Nat) (joiner : JoinerMap) (st : BuilderState) (data : QueryDict)
    (e : String),
  (update_query h joiner st data = .error e →
    (∀ execCount : QueryPlan → Except String Int,
      count h joiner execCount st data = ({ result := .error e, sessionClosed := false }, st)) ∧
    (∀ execFirst : QueryPlan → Except String (Option RawRow),
      first h joiner execFirst st data = ({ result := .error e, sessionClosed := false }, st)) ∧
    (∀ execRows : QueryPlan → Except String (List RawRow),
      iterall h joiner execRows st data = ({ result := .error e, sessionClosed := false }, st)) ∧
    (∀ execRows : QueryPlan → Except String (List RawRow),
      iterdict h joiner execRows st data = ({ result := .error e, sessionClosed := false }, st))) ∧
  (∀ (q : QueryPlan) (st' : BuilderState),
    update_query h joiner st data = .ok (q, st') →
    (∀ execCount : QueryPlan → Except String Int, execCount q = .error e →
      count h joiner execCount st data = ({ result := .error e, sessionClosed := true }, st')) ∧
    (∀ execFirst : QueryPlan → Except String (Option RawRow), execFirst q = .error e →
      first h joiner execFirst st data = ({ result := .error e, sessionClosed := true }, st')) ∧
    (∀ (execRows : QueryPlan → Except String (List RawRow)) (l : List (Nat × String)),
      st'.projectionIndexToField = some l → l ≠ [] → execRows q = .error e →
      iterall h joiner execRows st data = ({ result := .error e, sessionClosed := true }, st')) ∧
    (∀ execRows : QueryPlan → Except String (List RawRow),
      sumInner st'.tagToProjectedFields ≠ 0 → execRows q = .error e →
      iterdict h joiner execRows st data = ({ result := .error e, sessionClosed := true }, st'))) := by
  intro h joiner st data e
  constructor
  · intro hu
    refine ⟨?_, ?_, ?_, ?_⟩
    · intro ec
      unfold count
      rw [hu]
    · intro ef
      unfold first
      rw [hu]
    · intro er
      unfold iterall
      rw [hu]
    · intro er
      unfold iterdict
      rw [hu]
  · intro q st' hu
    refine ⟨?_, ?_, ?_, ?_⟩
    · intro ec hec
      unfold count
      rw [hu]
      dsimp only
      rw [hec]
    · intro ef hef
      unfold first
      rw [hu]
      dsimp only
      rw [hef]
    · intro er l hidx hne hrows
      unfold iterall
      rw [hu]
      dsimp only
      rw [hidx]
      have hie : l.isEmpty = false := by
        cases l with
        | nil => exact absurd rfl hne
        | cons a t => rfl
      simp only [hie, Bool.false_eq_true, if_false, bind, Except.bind, hrows]
      rfl
    · intro er hnz hrows
      unfold iterdict
      rw [hu]
      dsimp only
      have hz : (sumInner st'.tagToProjectedFields == 0) = false := by
        simpa [beq_eq_false_iff_ne] using hnz
      simp only [hz, Bool.false_eq_true, if_false, bind, Except.bind, hrows]

/-- C9 witness — the amended statement at concrete inputs: a bad-filter spec
failing at build time without a session close, and a failing collaborator
closing the session in all four methods. -/
theorem C9_session_release_witness :
  count (fun _ => 0) noJoiner (fun _ => .ok 0) {} specBadFilter =
    ({ result := .error ("ValueError: Unknown tag m in filters"), sessionClosed := false },
      ({} : BuilderState)) ∧
  ∃ q st', update_query specHash noJoiner {} specN = .ok (q, st') ∧
    count specHash noJoiner (fun _ => .error ("db down")) {} specN =
      ({ result := .error ("db down"), sessionClosed := true }, st') ∧
    first specHash noJoiner (fun _ => .error ("db down")) {} specN =
      ({ result := .error ("db down"), sessionClosed := true }, st') ∧
    iterall specHash noJoiner (fun _ => .error ("db down")) {} specN =
      ({ result := .error ("db down"), sessionClosed := true }, st') ∧
    iterdict specHash noJoiner (fun _ => .error ("db down")) {} specN =
      ({ result := .error ("db down"), sessionClosed := true }, st') := by
  constructor
  · exact ((C9_session_release (fun _ => 0) noJoiner {} specBadFilter
      ("ValueError: Unknown tag m in filters")).1 rfl).1 (fun _ => .ok 0)
  · refine ⟨_, _, rfl, ?_, ?_, ?_, ?_⟩
    · exact ((C9_session_release specHash noJoiner {} specN ("db down")).2 _ _ rfl).1 _ rfl
    · exact ((C9_session_release specHash noJoiner {} specN ("db down")).2 _ _ rfl).2.1 _ rfl
    · exact ((C9_session_release specHash noJoiner {} specN ("db down")).2 _ _ rfl).2.2.1 _
        [(0, "*")] rfl (by decide) rfl
    · exact ((C9_session_release specHash noJoiner {} specN ("db down")).2 _ _ rfl).2.2.2 _
        (by decide) rfl

/-- Characterisation of a successful `first` post-processing: the index is a
non-empty mapping whose size equals the (wrapped) row length, and the output
is the converted row. -/
theorem first_postprocess_ok {idx : Option (List (Nat × String))} {raw : RawRow}
    {vals : List BackendVal} (h : first_postprocess idx raw = .ok vals) :
    ∃ l, idx = some l ∧ l ≠ [] ∧
      vals = (match raw with | RawRow.single v => [v] | RawRow.row xs => xs).map to_backend ∧
      (match raw with | RawRow.single v => [v] | RawRow.row xs => xs).length = l.length := by
  have core : ∀ (res : List RawVal) (vals : List BackendVal),
      (match idx with
       | Option.none => (Except.error ("Exception: length of query result does not match the number of specified projections") : Except String (List BackendVal))
       | some l =>
         if l.isEmpty || res.length != l.length then
           Except.error ("Exception: length of query result does not match the number of specified projections")
         else Except.ok (res.map to_backend)) = .ok vals →
      ∃ l, idx = some l ∧ l ≠ [] ∧ vals = res.map to_backend ∧ res.length = l.length := by
    intro res vals hh
    split at hh
    · cases hh
    · rename_i l
      split at hh
      · cases hh
      · rename_i hcond
        cases hh
        simp only [Bool.or_eq_true, not_or, bne_iff_ne, ne_eq] at hcond
        push_neg at hcond
        obtain ⟨h1, h2⟩ := hcond
        refine ⟨l, rfl, ?_, rfl, h2⟩
        intro hl
        rw [hl] at h1
        simp [List.isEmpty] at h1
  cases raw with
  | single v => exact core [v] vals h
  | row xs => exact core xs vals h

/-- C10 — Whenever `first` returns a non-None result, the number of values
returned equals the number of entries in the projection index; the fetched
raw row was either a sequence of exactly that length or a single
non-sequence item wrapped into a one-element list, and an empty or unset
projection index never produces a result. -/
theorem C10_first_row_width :
  ∀ (h : QueryDict → Nat) (joiner : JoinerMap)
    (execFirst : QueryPlan → Except String (Option RawRow)) (st st' : BuilderState)
    (data : QueryDict) (mo : MethodOutcome (Option (List BackendVal)))
    (out : List BackendVal),
  first h joiner execFirst st data = (mo, st') →
  mo.result = .ok (some out) →
  ∃ l raw, st'.projectionIndexToField = some l ∧ l ≠ [] ∧ out.length = l.length ∧
    execFirst st'.query = .ok (some raw) ∧
    out = (match raw with
           | RawRow.single v => [to_backend v]
           | RawRow.row xs => xs.map to_backend) := by
  intro h joiner execFirst st st' data mo out hfirst hres
  unfold first at hfirst
  cases hu : update_query h joiner st data with
  | error e =>
    rw [hu] at hfirst
    cases hfirst
    cases hres
  | ok pair =>
    rw [hu] at hfirst
    dsimp only at hfirst
    obtain ⟨hhash, hquery⟩ := update_query_stores hu
    cases hef : execFirst pair.1 with
    | error e =>
      rw [hef] at hfirst
      cases hfirst
      cases hres
    | ok orow =>
      rw [hef] at hfirst
      cases orow with
      | none =>
        dsimp only at hfirst
        cases hfirst
        cases hres
      | some raw =>
        dsimp only at hfirst
        cases hpp : first_postprocess pair.2.projectionIndexToField raw with
        | error e =>
          rw [hpp] at hfirst
          cases hfirst
          cases hres
        | ok vals =>
          rw [hpp] at hfirst
          cases hfirst
          cases hres
          obtain ⟨l, hl, hlne, hvals, hlen⟩ := first_postprocess_ok hpp
          refine ⟨l, raw, hl, hlne, ?_, ?_, ?_⟩
          · rw [hvals]
            simpa using hlen
          · rw [hquery]
            exact hef
          · rw [hvals]
            cases raw <;> rfl

/-- C10 witness — the width guarantee at a concrete single-entity fetch. -/
theorem C10_first_row_width_witness :
  ∃ mo st' out,
    first specHash noJoiner (fun _ => .ok (some (RawRow.single (RawVal.entityV ("node") 5))))
      {} specN = (mo, st') ∧
    mo.result = .ok (some out) ∧
    ∃ l raw, st'.projectionIndexToField = some l ∧ l ≠ [] ∧ out.length = l.length ∧
      (fun _ => (.ok (some (RawRow.single (RawVal.entityV ("node") 5))) :
        Except String (Option RawRow))) st'.query = .ok (some raw) ∧
      out = (match raw with
             | RawRow.single v => [to_backend v]
             | RawRow.row xs => xs.map to_backend) := by
  refine ⟨_, _, _, rfl, rfl, ?_⟩
  exact C10_first_row_width specHash noJoiner
    (fun _ => .ok (some (RawRow.single (RawVal.entityV ("node") 5)))) {} _ specN _ _ rfl rfl
